import Mathlib

/-!
# CryMono: member resolution, invocation and the interop glue

A shallow embedding of `src/MonoDll/MonoClass.cpp` (the member lookups
`GetMonoMethod` in both overloads, `GetMethodThunk`, `GetMonoProperty`,
`GetMonoField`, and the operations `Invoke`, `InvokeArray`, `CreateInstance`
and the property and field accessors), of `MonoInterface` (`Shutdown`,
`HandleException`, `OnPostUpdate`, `RegisterDefaultListeners`), of
`IMonoDelegate`, of `MouseInterop::OnHardwareMouseEvent` and of
`MonoFlowNode`, with theorems about them. The documented resolver
(`IMonoClass::GetFunction`, `Resolve` with `searchBase`) and the object
handles, whose code is not among the sources, are modelled from the
specification.

Conventions of the embedding:

* a `MonoClass *` is a value of `MonoClassPtr`: either `nullptr` or a class
  with its own members (in metadata order) and its parent pointer; the class
  returned by `mono_get_object_class()` is the one flagged `isObjectClass`;
* `mono_class_get_methods (pClass, &pIterator)` walks a list: the iterator is
  the list of members not yet handed out, and a reset iterator is the whole
  member list of the class;
* a `const char *` name is a non-null C string, a `String` here, and
  `strcmp (a, b) == 0` is equality of strings;
* `IMonoArray *` may be null (`none`); its items may be null objects;
* an operation with effects outside the program returns, next to its value,
  the list of these effects in the order in which they happen;
* a loop whose counter is a machine integer that may wrap is run with fuel.
-/

deriving instance DecidableEq for Except

namespace CryMono

/-! ## Data model -/

/-- Element types of Mono metadata (`MonoTypeEnum` of the Mono embedding API),
the result of `mono_type_get_type`. -/
inductive MonoTypeEnum where
  | MONO_TYPE_END
  | MONO_TYPE_VOID
  | MONO_TYPE_BOOLEAN
  | MONO_TYPE_CHAR
  | MONO_TYPE_I1
  | MONO_TYPE_U1
  | MONO_TYPE_I2
  | MONO_TYPE_U2
  | MONO_TYPE_I4
  | MONO_TYPE_U4
  | MONO_TYPE_I8
  | MONO_TYPE_U8
  | MONO_TYPE_R4
  | MONO_TYPE_R8
  | MONO_TYPE_STRING
  | MONO_TYPE_PTR
  | MONO_TYPE_BYREF
  | MONO_TYPE_VALUETYPE
  | MONO_TYPE_CLASS
  | MONO_TYPE_VAR
  | MONO_TYPE_ARRAY
  | MONO_TYPE_GENERICINST
  | MONO_TYPE_TYPEDBYREF
  | MONO_TYPE_I
  | MONO_TYPE_U
  | MONO_TYPE_FNPTR
  | MONO_TYPE_OBJECT
  | MONO_TYPE_SZARRAY
  | MONO_TYPE_MVAR
  deriving DecidableEq, Repr

/-- Modelled from the spec: the enumeration `EMonoAnyType` is declared in
`MonoCommon.h`, which is not among the sources. The spec lists the runtime
categories "boolean, 32-bit signed/unsigned integer, 16-bit signed/unsigned
integer, string, entity-reference, ..."; the seven enumerators that
`GetMonoMethod` names are spelled as in the code, and every further enumerator
(floating point, vectors, arrays, unknown, ...) is `eMonoAnyType_Other tag`. -/
inductive EMonoAnyType where
  | eMonoAnyType_Boolean
  | eMonoAnyType_Integer
  | eMonoAnyType_UnsignedInteger
  | eMonoAnyType_EntityId
  | eMonoAnyType_Short
  | eMonoAnyType_UnsignedShort
  | eMonoAnyType_String
  | eMonoAnyType_Other (tag : Nat)
  deriving DecidableEq, Repr

/-- A `MonoMethod`: its name (`mono_method_get_name`), the parameter types of
its signature in order (`mono_method_signature`, `mono_signature_get_params`)
and its metadata token, which tells two methods of equal name and signature
apart. -/
structure MonoMethod where
  name : String
  params : List MonoTypeEnum
  token : Nat
  deriving DecidableEq, Repr

/-- A `MonoProperty`: its name (`mono_property_get_name`) and metadata token. -/
structure MonoProperty where
  name : String
  token : Nat
  deriving DecidableEq, Repr

/-- A `MonoClassField`: its name (`mono_field_get_name`) and metadata token. -/
structure MonoClassField where
  name : String
  token : Nat
  deriving DecidableEq, Repr

/-- A `MonoClass *`: null, or a class with the members it declares itself (in
the order in which the Mono iterators hand them out) and its parent pointer
(`mono_class_get_parent`). `isObjectClass` says that the pointer is the one
returned by `mono_get_object_class()`. -/
inductive MonoClassPtr where
  | nullptr : MonoClassPtr
  | cls (isObjectClass : Bool) (methods : List MonoMethod)
      (properties : List MonoProperty) (fields : List MonoClassField)
      (parent : MonoClassPtr) : MonoClassPtr
  deriving Repr

namespace MonoClassPtr

/-- The test `pClass == mono_get_object_class()`. -/
def isObject : MonoClassPtr → Bool
  | nullptr => false
  | cls o _ _ _ _ => o

/-- The result of `mono_class_get_parent (pClass)`. -/
def getParent : MonoClassPtr → MonoClassPtr
  | nullptr => nullptr
  | cls _ _ _ _ p => p

/-- The methods handed out by `mono_class_get_methods` from a reset iterator. -/
def getMethods : MonoClassPtr → List MonoMethod
  | nullptr => []
  | cls _ ms _ _ _ => ms

/-- The properties handed out by `mono_class_get_properties` from a reset
iterator. -/
def getProperties : MonoClassPtr → List MonoProperty
  | nullptr => []
  | cls _ _ ps _ _ => ps

/-- The fields handed out by `mono_class_get_fields` from a reset iterator. -/
def getFields : MonoClassPtr → List MonoClassField
  | nullptr => []
  | cls _ _ _ fs _ => fs

end MonoClassPtr

/-- `mono_signature_get_param_count`. -/
def MonoMethod.paramCount (m : MonoMethod) : Nat := m.params.length

/-- An `IMonoObject`: only its runtime category (`GetType ()`) matters to the
lookup. -/
structure IMonoObject where
  anyType : EMonoAnyType
  deriving DecidableEq, Repr

/-- Modelled from the spec: `IMonoArray` is declared in `IMonoArray.h`, which is
not among the sources. It is the "boxed argument array" of the spec: the
sequence of its items, each an object reference that may be null. -/
abbrev IMonoArray := List (Option IMonoObject)

/-- An invalid access to the argument array. -/
inductive ArrayFault where
  | nullArray (index : Nat)
  | outOfRange (index size : Nat)
  deriving DecidableEq, Repr

/-! ## The lookups of `CScriptClass` -/

/-- The body of the `while (pClass != nullptr)` loop shared by
`GetMonoMethod (const char *, int)`, `GetMonoProperty` and `GetMonoField`,
for the members that the iterator of the current class still holds:
a member that passes the test is returned; when the iterator is exhausted
the loop goes on as `onExhausted` says. -/
def scanMembers {α : Type} (test : α → Bool) : List α → Option α → Option α
  | [], onExhausted => onExhausted
  | pCur :: rest, onExhausted =>
      if test pCur then some pCur else scanMembers test rest onExhausted

/-- The `while (pClass != nullptr)` loop shared by
`GetMonoMethod (const char *, int)`, `GetMonoProperty` and `GetMonoField`, in
the state (`pClass`, `pIterator`): members of `pClass` are tested in turn;
when there is none left `pClass` becomes its parent, the loop is left with
null if that is the object class, and otherwise goes on with a reset
iterator. -/
def walkMembers {α : Type} (members : MonoClassPtr → List α) (test : α → Bool) :
    MonoClassPtr → List α → Option α
  | .nullptr, _ => none
  | .cls _ _ _ _ parent, pIterator =>
      scanMembers test pIterator
        (if parent.isObject then none else walkMembers members test parent (members parent))

/-- `CScriptClass::GetMonoMethod (const char *methodName, int numParams)` on
the class `pClass` wrapped by the `CScriptClass`. -/
def GetMonoMethod (pClass : MonoClassPtr) (methodName : String) (numParams : Int) :
    Option MonoMethod :=
  walkMembers MonoClassPtr.getMethods
    (fun pCurMethod =>
      let signatureParamCount : Int := pCurMethod.paramCount
      let bCorrectName := pCurMethod.name == methodName
      bCorrectName && signatureParamCount == numParams)
    pClass pClass.getMethods

/-- `CScriptClass::GetMethodThunk`: the unmanaged thunk of the method found by
`GetMonoMethod`, or null. `mono_method_get_unmanaged_thunk` is a parameter. -/
def GetMethodThunk {Thunk : Type} (mono_method_get_unmanaged_thunk : MonoMethod → Thunk)
    (pClass : MonoClassPtr) (methodName : String) (numParams : Int) : Option Thunk :=
  match GetMonoMethod pClass methodName numParams with
  | some pMethod => some (mono_method_get_unmanaged_thunk pMethod)
  | none => none

/-- `CScriptClass::GetMonoProperty (const char *name)`. -/
def GetMonoProperty (pClass : MonoClassPtr) (name : String) : Option MonoProperty :=
  walkMembers MonoClassPtr.getProperties (fun pCurProperty => pCurProperty.name == name)
    pClass pClass.getProperties

/-- `CScriptClass::GetMonoField (const char *name)`. -/
def GetMonoField (pClass : MonoClassPtr) (name : String) : Option MonoClassField :=
  walkMembers MonoClassPtr.getFields (fun pCurField => pCurField.name == name)
    pClass pClass.getFields

/-- `pArgs ? pArgs->GetSize () : 0`. -/
def suppliedArgsCount (pArgs : Option IMonoArray) : Nat :=
  match pArgs with
  | some items => items.length
  | none => 0

/-- Modelled from the spec: `IMonoArray::GetItem` is implemented outside the
sources. `pArgs->GetItem (i)` is a fault when `pArgs` is null or `i` is not an
index of the array, and the item at `i` (possibly a null object) otherwise. -/
def GetItem (pArgs : Option IMonoArray) (i : Nat) : Except ArrayFault (Option IMonoObject) :=
  match pArgs with
  | none => .error (.nullArray i)
  | some items =>
      match items.get? i with
      | some pItem => .ok pItem
      | none => .error (.outOfRange i items.length)

/-- The chain of tests on `monoType` and `anyType` in
`GetMonoMethod (const char *, IMonoArray *)`: `true` when one of them leaves
the `for` loop by `break`. -/
def paramMismatch (monoType : MonoTypeEnum) (anyType : EMonoAnyType) : Bool :=
  if monoType = .MONO_TYPE_BOOLEAN && anyType != .eMonoAnyType_Boolean then true
  else if monoType = .MONO_TYPE_I4 && anyType != .eMonoAnyType_Integer then true
  else if monoType = .MONO_TYPE_U4 &&
      (anyType != .eMonoAnyType_UnsignedInteger && anyType != .eMonoAnyType_EntityId) then true
  else if monoType = .MONO_TYPE_I2 && anyType != .eMonoAnyType_Short then true
  else if monoType = .MONO_TYPE_U2 && anyType != .eMonoAnyType_UnsignedShort then true
  else if monoType = .MONO_TYPE_STRING && anyType != .eMonoAnyType_String then true
  else false

/-- The loop `for (int i = 0; i < signatureParamCount; i++)` of
`GetMonoMethod (const char *, IMonoArray *)` from index `i` on, the signature
iterator `pIter` still holding the parameter types `pIter`: `true` when the
loop returns `pCurMethod`, `false` when it ends by `break` or by running out
of parameters. -/
def checkParams (pArgs : Option IMonoArray) (supplied : Nat) :
    Nat → List MonoTypeEnum → Except ArrayFault Bool
  | _, [] => .ok false
  | i, pType :: pIter =>
      match GetItem pArgs i with
      | .error fault => .error fault
      | .ok (some pItem) =>
          if paramMismatch pType pItem.anyType then .ok false
          else if i + 1 = supplied then .ok true
          else checkParams pArgs supplied (i + 1) pIter
      | .ok none =>
          if i + 1 = supplied then .ok true
          else checkParams pArgs supplied (i + 1) pIter

/-- The body of the `while` loop of `GetMonoMethod (const char *, IMonoArray *)`
for the methods that the iterator of the current class still holds. -/
def scanMethodsArgs (methodName : String) (pArgs : Option IMonoArray) :
    List MonoMethod → Except ArrayFault (Option MonoMethod) →
    Except ArrayFault (Option MonoMethod)
  | [], onExhausted => onExhausted
  | pCurMethod :: rest, onExhausted =>
      let signatureParamCount := pCurMethod.paramCount
      let bCorrectName := pCurMethod.name == methodName
      if bCorrectName && signatureParamCount == 0 && suppliedArgsCount pArgs == 0 then
        .ok (some pCurMethod)
      else if bCorrectName && decide (signatureParamCount ≥ suppliedArgsCount pArgs) then
        match checkParams pArgs (suppliedArgsCount pArgs) 0 pCurMethod.params with
        | .error fault => .error fault
        | .ok true => .ok (some pCurMethod)
        | .ok false => scanMethodsArgs methodName pArgs rest onExhausted
      else scanMethodsArgs methodName pArgs rest onExhausted

/-- The `while (pClass != nullptr)` loop of
`GetMonoMethod (const char *, IMonoArray *)` in the state (`pClass`,
`pIterator`). -/
def walkMethodsArgs (methodName : String) (pArgs : Option IMonoArray) :
    MonoClassPtr → List MonoMethod → Except ArrayFault (Option MonoMethod)
  | .nullptr, _ => .ok none
  | .cls _ _ _ _ parent, pIterator =>
      scanMethodsArgs methodName pArgs pIterator
        (if parent.isObject then .ok none
         else walkMethodsArgs methodName pArgs parent parent.getMethods)

/-- `CScriptClass::GetMonoMethod (const char *methodName, IMonoArray *pArgs)`
on the class `pClass` wrapped by the `CScriptClass`: the method found, null
(`none`), or the first invalid access to `pArgs`. -/
def GetMonoMethodArgs (pClass : MonoClassPtr) (methodName : String)
    (pArgs : Option IMonoArray) : Except ArrayFault (Option MonoMethod) :=
  walkMethodsArgs methodName pArgs pClass pClass.getMethods

/-! ## The search order the specification describes -/

/-- The members of the ancestors that a lookup reaches through the parent
pointer `p`, in the words of the specification: "walk ... its base chain (stop
at the sentinel root object type - that type's own members are never matched
against user queries)". -/
def inheritedMembers {α : Type} (members : MonoClassPtr → List α) : MonoClassPtr → List α
  | .nullptr => []
  | .cls o ms ps fs parent =>
      if o then [] else members (.cls o ms ps fs parent) ++ inheritedMembers members parent

/-- The walk order of the specification: "the type's own member list, then its
base chain", each class in declaration order. -/
def searchOrder {α : Type} (members : MonoClassPtr → List α) (pClass : MonoClassPtr) : List α :=
  members pClass ++ inheritedMembers members pClass.getParent

/-- The walk order for methods. -/
def methodSearchOrder (pClass : MonoClassPtr) : List MonoMethod :=
  searchOrder MonoClassPtr.getMethods pClass

/-- The walk order for properties. -/
def propertySearchOrder (pClass : MonoClassPtr) : List MonoProperty :=
  searchOrder MonoClassPtr.getProperties pClass

/-- The walk order for fields. -/
def fieldSearchOrder (pClass : MonoClassPtr) : List MonoClassField :=
  searchOrder MonoClassPtr.getFields pClass

/-- The whole base chain of a class: the class, its parent, and so on up to
the class without a parent, the object class included. -/
def baseChain : MonoClassPtr → List MonoClassPtr
  | .nullptr => []
  | .cls o ms ps fs parent => .cls o ms ps fs parent :: baseChain parent

/-- The category test on six declared types: a declared parameter that is a
boolean, a 32-bit signed or unsigned integer (an entity reference counts as
unsigned), a 16-bit signed or unsigned integer or a string requires an
argument of the matching runtime category; a declared parameter of any other
type is compatible with every argument. -/
def typeCompatible : MonoTypeEnum → EMonoAnyType → Bool
  | .MONO_TYPE_BOOLEAN, a => a == .eMonoAnyType_Boolean
  | .MONO_TYPE_I4, a => a == .eMonoAnyType_Integer
  | .MONO_TYPE_U4, a => a == .eMonoAnyType_UnsignedInteger || a == .eMonoAnyType_EntityId
  | .MONO_TYPE_I2, a => a == .eMonoAnyType_Short
  | .MONO_TYPE_U2, a => a == .eMonoAnyType_UnsignedShort
  | .MONO_TYPE_STRING, a => a == .eMonoAnyType_String
  | _, _ => true

/-- Compatibility of an item of the argument array, which may be a null
object, with a declared parameter: a null object is not examined. -/
def itemCompatible (t : MonoTypeEnum) : Option IMonoObject → Bool
  | none => true
  | some pItem => typeCompatible t pItem.anyType

/-- The candidate test of the overload search by arguments: the name is the
query name, the declared parameter count is at least the supplied count, and
each supplied argument that is not null passes the category test on six
declared types (`typeCompatible`) against the declared parameter at its
position. -/
def acceptsArgs (methodName : String) (items : IMonoArray) (m : MonoMethod) : Bool :=
  m.name == methodName && decide (items.length ≤ m.paramCount) &&
    (List.zip m.params items).all (fun ti => itemCompatible ti.1 ti.2)

/-- The candidate test of the lookup by name and parameter count: the name is
the query name and the declared parameter count is the requested count. -/
def matchesCount (methodName : String) (numParams : Int) (m : MonoMethod) : Bool :=
  m.name == methodName && ((m.paramCount : Int) == numParams)

/-- The argument test of the overload search for arguments that are not null:
each argument passes the category test on six declared types
(`typeCompatible`) against the declared parameter at its position, so that a
declared parameter outside the six types accepts every argument. -/
def argsCompatible (params : List MonoTypeEnum) (args : List IMonoObject) : Bool :=
  (List.zip params args).all (fun ta => typeCompatible ta.1 ta.2.anyType)

/-- The reading of "the runtime category matches the primitive category of the
declared parameter, for every primitive category" that claim C4 gives by its
example: beyond the categories of `typeCompatible`, a floating-point
parameter is matched by none of the boolean, integer, entity and string
categories. -/
def strictCategoryMatch : MonoTypeEnum → EMonoAnyType → Bool
  | .MONO_TYPE_R4, .eMonoAnyType_Other _ => true
  | .MONO_TYPE_R4, _ => false
  | .MONO_TYPE_R8, .eMonoAnyType_Other _ => true
  | .MONO_TYPE_R8, _ => false
  | t, a => typeCompatible t a

/-- The declared parameter types that `GetMonoMethod (const char *, IMonoArray *)`
compares with the runtime category of the argument. -/
def checkedTypes : List MonoTypeEnum :=
  [.MONO_TYPE_BOOLEAN, .MONO_TYPE_I4, .MONO_TYPE_U4, .MONO_TYPE_I2, .MONO_TYPE_U2,
    .MONO_TYPE_STRING]

/-- The argument test under the strict reading of "type-compatible": each
argument matches the primitive category of the declared parameter at its
position (`strictCategoryMatch`), so that a floating-point parameter is not
compatible with a string argument. -/
def argsStrictlyCompatible (params : List MonoTypeEnum) (args : List IMonoObject) : Bool :=
  (List.zip params args).all (fun ta => strictCategoryMatch ta.1 ta.2.anyType)

/-! ## Example classes -/

/-- The object class with the method `ToString ()`. -/
def exampleObjectClass : MonoClassPtr :=
  .cls true [⟨"ToString", [], 100⟩] [] [] .nullptr

/-- The overload `f (int)`. -/
def fInt : MonoMethod := ⟨"f", [.MONO_TYPE_I4], 1⟩

/-- The overload `f (int, string)`. -/
def fIntString : MonoMethod := ⟨"f", [.MONO_TYPE_I4, .MONO_TYPE_STRING], 2⟩

/-- A class that declares `f (int)` before `f (int, string)`. -/
def overloadClass : MonoClassPtr :=
  .cls false [fInt, fIntString] [] [] exampleObjectClass

/-- The overload `g (string)`. -/
def gString : MonoMethod := ⟨"g", [.MONO_TYPE_STRING], 3⟩

/-- The overload `g (int)`. -/
def gInt : MonoMethod := ⟨"g", [.MONO_TYPE_I4], 4⟩

/-- A class that declares `g (string)` before `g (int)`. -/
def rejectClass : MonoClassPtr :=
  .cls false [gString, gInt] [] [] exampleObjectClass

/-- The method `h (float)`. -/
def hFloat : MonoMethod := ⟨"h", [.MONO_TYPE_R4], 5⟩

/-- A class that declares `h (float)` only. -/
def floatClass : MonoClassPtr :=
  .cls false [hFloat] [] [] exampleObjectClass

/-- The overload `h (string)`. -/
def hString : MonoMethod := ⟨"h", [.MONO_TYPE_STRING], 6⟩

/-- A class that declares `h (float)` before `h (string)`. -/
def floatFirstClass : MonoClassPtr :=
  .cls false [hFloat, hString] [] [] exampleObjectClass

/-- An argument of runtime category Integer. -/
def intArg : IMonoObject := ⟨.eMonoAnyType_Integer⟩

/-- An argument of runtime category String. -/
def stringArg : IMonoObject := ⟨.eMonoAnyType_String⟩

/-- The class `B2` of the chain `T -> B1 -> B2 -> object`: it declares the
method `Update ()`, the property `Health` and the field `m_id`. -/
def chainB2 : MonoClassPtr :=
  .cls false [⟨"Update", [], 10⟩] [⟨"Health", 11⟩] [⟨"m_id", 12⟩] exampleObjectClass

/-- The class `B1` of the chain: it declares the method `Reset ()`, the
property `Armor` and the field `m_flags`. -/
def chainB1 : MonoClassPtr :=
  .cls false [⟨"Reset", [], 20⟩] [⟨"Armor", 21⟩] [⟨"m_flags", 22⟩] chainB2

/-- The class `T` of the chain: it declares the method `Fire (int)`, the
property `Ammo` and the field `m_ammo`. -/
def chainT : MonoClassPtr :=
  .cls false [⟨"Fire", [.MONO_TYPE_I4], 30⟩] [⟨"Ammo", 31⟩] [⟨"m_ammo", 32⟩] chainB1

/-! ## Invocation and member access of `CScriptClass` -/

/-- A `mono::object` (`MonoObject *`) that is not null: an address. A
reference that may be null is an `Option MonoObjectRef`. -/
abbrev MonoObjectRef := Nat

/-- The `void **pParams` of `CScriptClass::Invoke`: null, or the addresses of
the arguments. -/
abbrev RawParams := Option (List Nat)

/-- What an operation of `CScriptClass` does to the outside, in the order of
the calls. `excSlot` says whether the call of the Mono runtime is given a
pointer to an exception slot (`&pException`) or `nullptr`. -/
inductive Effect where
  | objectNew (pInstance : Option MonoObjectRef)
  | runtimeObjectInit (target : Option MonoObjectRef)
  | runtimeInvoke (pMethod : MonoMethod) (object : Option MonoObjectRef) (excSlot : Bool)
  | runtimeInvokeArray (pMethod : MonoMethod) (object : Option MonoObjectRef) (excSlot : Bool)
  | propertyGetValue (pProperty : MonoProperty) (object : Option MonoObjectRef)
      (excSlot : Bool)
  | propertySetValue (pProperty : MonoProperty) (object newValue : Option MonoObjectRef)
      (excSlot : Bool)
  | fieldGetValueObject (pField : MonoClassField) (object : Option MonoObjectRef)
  | fieldSetValue (pField : MonoClassField) (object newValue : Option MonoObjectRef)
  | HandleException (pException : MonoObjectRef)
  | Throw (nameSpace exceptionClass message : String)
  deriving DecidableEq, Repr

/-- The answers of the Mono runtime to the calls of `CScriptClass`: the new
object of `mono_object_new`, and for each call that runs managed code the
object it returns together with the exception it leaves in the slot
(`none` when managed code raises none). -/
structure MonoRuntime where
  mono_object_new : Option MonoObjectRef
  mono_runtime_invoke : MonoMethod → Option MonoObjectRef → RawParams →
    Option MonoObjectRef × Option MonoObjectRef
  mono_runtime_invoke_array : MonoMethod → Option MonoObjectRef → Option IMonoArray →
    Option MonoObjectRef × Option MonoObjectRef
  mono_property_get_value : MonoProperty → Option MonoObjectRef →
    Option MonoObjectRef × Option MonoObjectRef
  mono_field_get_value_object : MonoClassField → Option MonoObjectRef → Option MonoObjectRef

/-- The result of an operation of `CScriptClass`: the `mono::object` it
returns (`none` is `nullptr`) and what it did. -/
structure Outcome where
  result : Option MonoObjectRef
  trace : List Effect
  deriving DecidableEq, Repr

/-- A `CScriptClass`: `m_pObject` is the address of the wrapped `MonoClass`
(the constructor stores `(MonoObject *)pClass` there), `monoClass` is the
class at that address, `(MonoClass *)m_pObject`, and `m_name` its name. -/
structure CScriptClass where
  m_pObject : MonoObjectRef
  monoClass : MonoClassPtr
  m_name : String

namespace CScriptClass

/-- The message of `GetException (..., "Failed to locate <kind> %s in class %s",
name, GetName ())`. -/
def failMessage (this : CScriptClass) (kind name : String) : String :=
  "Failed to locate " ++ kind ++ " " ++ name ++ " in class " ++ this.m_name

/-- The tail shared by `Invoke`, `InvokeArray` and `GetPropertyValue` after the
runtime call: `if (pException) HandleException (pException); else if (pResult)
return pResult; ... return nullptr;`. -/
def afterCall (call : Effect) (answer : Option MonoObjectRef × Option MonoObjectRef) :
    Outcome :=
  match answer with
  | (_, some pException) => ⟨none, [call, .HandleException pException]⟩
  | (some pResult, none) => ⟨some pResult, [call]⟩
  | (none, none) => ⟨none, [call]⟩

/-- The branch `else if (throwOnFail) GetException ("System", exceptionClass,
...)->Throw ();` followed by `return nullptr;`. -/
def onMissing (this : CScriptClass) (throwOnFail : Bool) (exceptionClass kind name : String) :
    Outcome :=
  if throwOnFail then ⟨none, [.Throw "System" exceptionClass (this.failMessage kind name)]⟩
  else ⟨none, []⟩

/-- `CScriptClass::InvokeArray`. -/
def InvokeArray (rt : MonoRuntime) (this : CScriptClass) (object : Option MonoObjectRef)
    (methodName : String) (pParams : Option IMonoArray) (throwOnFail : Bool) :
    Except ArrayFault Outcome :=
  match GetMonoMethodArgs this.monoClass methodName pParams with
  | .error fault => .error fault
  | .ok (some pMethod) =>
      .ok (afterCall (.runtimeInvokeArray pMethod object true)
        (rt.mono_runtime_invoke_array pMethod object pParams))
  | .ok none => .ok (this.onMissing throwOnFail "MissingMethodException" "method" methodName)

/-- `CScriptClass::Invoke`. -/
def Invoke (rt : MonoRuntime) (this : CScriptClass) (object : Option MonoObjectRef)
    (methodName : String) (pParams : RawParams) (numParams : Int) (throwOnFail : Bool) :
    Outcome :=
  match GetMonoMethod this.monoClass methodName numParams with
  | some pMethod =>
      afterCall (.runtimeInvoke pMethod object true)
        (rt.mono_runtime_invoke pMethod object pParams)
  | none => this.onMissing throwOnFail "MissingMethodException" "method" methodName

/-- `CScriptClass::GetPropertyValue`. -/
def GetPropertyValue (rt : MonoRuntime) (this : CScriptClass) (object : Option MonoObjectRef)
    (propertyName : String) (throwOnFail : Bool) : Outcome :=
  match GetMonoProperty this.monoClass propertyName with
  | some pProperty =>
      afterCall (.propertyGetValue pProperty object true)
        (rt.mono_property_get_value pProperty object)
  | none => this.onMissing throwOnFail "MissingMemberException" "property" propertyName

/-- `CScriptClass::SetPropertyValue`: the setter is called with `nullptr` for
the exception slot, and nothing comes back from the call. -/
def SetPropertyValue (this : CScriptClass) (object : Option MonoObjectRef)
    (propertyName : String) (newValue : Option MonoObjectRef) (throwOnFail : Bool) :
    List Effect :=
  match GetMonoProperty this.monoClass propertyName with
  | some pProperty => [.propertySetValue pProperty object newValue false]
  | none =>
      (this.onMissing throwOnFail "MissingMemberException" "property" propertyName).trace

/-- `CScriptClass::GetFieldValue`. -/
def GetFieldValue (rt : MonoRuntime) (this : CScriptClass) (object : Option MonoObjectRef)
    (fieldName : String) (throwOnFail : Bool) : Outcome :=
  match GetMonoField this.monoClass fieldName with
  | some pField =>
      match rt.mono_field_get_value_object pField object with
      | some fieldValue => ⟨some fieldValue, [.fieldGetValueObject pField object]⟩
      | none => ⟨none, [.fieldGetValueObject pField object]⟩
  | none => this.onMissing throwOnFail "MissingFieldException" "field" fieldName

/-- `CScriptClass::SetFieldValue`. -/
def SetFieldValue (this : CScriptClass) (object : Option MonoObjectRef)
    (fieldName : String) (newValue : Option MonoObjectRef) (throwOnFail : Bool) :
    List Effect :=
  match GetMonoField this.monoClass fieldName with
  | some pField => [.fieldSetValue pField object newValue]
  | none => (this.onMissing throwOnFail "MissingFieldException" "field" fieldName).trace

/-- `CScriptClass::CreateInstance`. `throwOnFailDefault` is the default
argument of `InvokeArray`, declared in a header that is not among the sources.
Without constructor parameters the code calls
`mono_runtime_object_init (m_pObject)`. -/
def CreateInstance (rt : MonoRuntime) (this : CScriptClass)
    (pConstructorParams : Option IMonoArray) (throwOnFailDefault : Bool) :
    Except ArrayFault Outcome :=
  let pInstance := rt.mono_object_new
  match pConstructorParams with
  | some items =>
      match InvokeArray rt this pInstance ".ctor" (some items) throwOnFailDefault with
      | .error fault => .error fault
      | .ok called => .ok ⟨pInstance, .objectNew pInstance :: called.trace⟩
  | none => .ok ⟨pInstance, [.objectNew pInstance, .runtimeObjectInit (some this.m_pObject)]⟩

end CScriptClass

/-! ## `MonoInterface`: shutdown, update and exception report -/

/-- What `MonoInterface` does to the outside, in the order of the calls:
log lines, calls of the broadcaster, calls of the managed thunks of
`MonoInterfaceThunks`, listener removal, releases (`delete`,
`MonoClassCache::Dispose`) and `mono_jit_cleanup`. -/
inductive Action where
  | CryLogAlways (message : String)
  | broadcasterShutdown
  | broadcasterUpdate
  | broadcasterPostUpdate
  | thunkShutdown
  | thunkUpdate
  | thunkDisplayException (exception : MonoObjectRef)
  | frameworkUnregisterListener
  | dispatcherRemoveListener
  | deleteAssemblies
  | deleteGc
  | deleteObjs
  | deleteFuncs
  | classCacheDispose
  | mono_jit_cleanup
  | deleteBroadcaster
  deriving DecidableEq, Repr

/-- The state of a `MonoInterface`: the flag `running`, and for each object it
owns whether the object is still allocated (`delete` and `Dispose` release it,
`mono_jit_cleanup` tears the application domain down), and whether the
interface is registered as a listener of the framework and of the system. -/
structure MonoInterface where
  running : Bool
  broadcaster : Bool
  assemblies : Bool
  gc : Bool
  objs : Bool
  funcs : Bool
  classCache : Bool
  appDomain : Bool
  listening : Bool
  deriving DecidableEq, Repr

namespace MonoInterface

/-- `MonoInterface::Shutdown`: the state it leaves and what it did. -/
def Shutdown (this : MonoInterface) : MonoInterface × List Action :=
  if !this.running then
    (this, [.CryLogAlways "Checking activity before shutdown."])
  else
    ({ running := false, broadcaster := false, assemblies := false, gc := false,
       objs := false, funcs := false, classCache := false, appDomain := false,
       listening := false },
     [.CryLogAlways "Checking activity before shutdown.",
      .CryLogAlways "About to broadcast shutdown event.",
      .broadcasterShutdown,
      .CryLogAlways "About to send shutdown event to Cryambly.",
      .thunkShutdown,
      .frameworkUnregisterListener,
      .dispatcherRemoveListener,
      .deleteAssemblies,
      .deleteGc,
      .deleteObjs,
      .deleteFuncs,
      .classCacheDispose,
      .CryLogAlways "Shutting down jit.",
      .mono_jit_cleanup,
      .CryLogAlways "No more running.",
      .CryLogAlways "Deleting broadcaster.",
      .deleteBroadcaster])

/-- `MonoInterface::HandleException`: what it did (the state is not changed). -/
def HandleException (this : MonoInterface) (exception : MonoObjectRef) : List Action :=
  if !this.running then []
  else [.thunkDisplayException exception]

/-- `MonoInterface::OnPostUpdate`: what it did (the state is not changed). -/
def OnPostUpdate (this : MonoInterface) : List Action :=
  if this.running then [.broadcasterUpdate, .thunkUpdate, .broadcasterPostUpdate]
  else []

end MonoInterface

/-- The releases that claim C16 names: the assembly registry, the GC and
handle manager, the object and function services and the class cache. -/
def registryReleases : List Action :=
  [.deleteAssemblies, .deleteGc, .deleteObjs, .deleteFuncs, .classCacheDispose]

/-- An action that releases an object or tears the runtime down. -/
def Action.isRelease : Action → Bool
  | .deleteAssemblies => true
  | .deleteGc => true
  | .deleteObjs => true
  | .deleteFuncs => true
  | .classCacheDispose => true
  | .mono_jit_cleanup => true
  | .deleteBroadcaster => true
  | .frameworkUnregisterListener => true
  | .dispatcherRemoveListener => true
  | _ => false

/-- An action that calls a managed thunk of `MonoInterfaceThunks`. -/
def Action.isThunk : Action → Bool
  | .thunkShutdown => true
  | .thunkUpdate => true
  | .thunkDisplayException _ => true
  | _ => false

/-! ## `IMonoDelegate` -/

/-- The parts of `MonoEnv->Objects` that `IMonoDelegate` calls: `InvokeDelegate`
answers with the object the delegate returns and with the exception it
leaves in the slot (`none` when none is raised); `GetDelegateFunction` answers
with a new `IMonoFunction` wrapper (an address, or null). -/
structure MonoEnvObjects where
  InvokeDelegate : Option MonoObjectRef → RawParams →
    Option MonoObjectRef × Option MonoObjectRef
  GetDelegateFunction : Option MonoObjectRef → Option Nat

/-- An `IMonoDelegate`: the wrapped delegate `obj` and the cached wrapper
pointer `func` (`none` is `nullptr`). -/
structure IMonoDelegate where
  obj : Option MonoObjectRef
  func : Option Nat
  deriving DecidableEq, Repr

/-- The result of `IMonoDelegate::Invoke`: the object returned, what was
written to the exception slot of the caller (`none` when the caller gave
none), and the exceptions passed to `MonoEnv->HandleException`. -/
structure DelegateOutcome where
  result : Option MonoObjectRef
  slot : Option (Option MonoObjectRef)
  handled : List MonoObjectRef
  deriving DecidableEq, Repr

namespace IMonoDelegate

/-- `IMonoDelegate::Invoke (params, ex)`; `ex` says whether the caller gives an
exception slot. -/
def Invoke (env : MonoEnvObjects) (this : IMonoDelegate) (params : RawParams) (ex : Bool) :
    DelegateOutcome :=
  if !ex then
    match env.InvokeDelegate this.obj params with
    | (_, some exo) => ⟨none, none, [exo]⟩
    | (obj, none) => ⟨obj, none, []⟩
  else
    let answer := env.InvokeDelegate this.obj params
    ⟨answer.1, some answer.2, []⟩

/-- `IMonoDelegate::operator= (mono::delegat del)`: the wrapper afterwards and
the wrapper pointers given to `delete`. The member `func` is not written. -/
def assign (this : IMonoDelegate) (del : Option MonoObjectRef) : IMonoDelegate × List Nat :=
  if this.obj != del then
    match this.func with
    | some f => ({ obj := del, func := this.func }, [f])
    | none => ({ obj := del, func := this.func }, [])
  else (this, [])

/-- `IMonoDelegate::GetFunction`: the pointer returned and the wrapper
afterwards (the function caches the pointer through a `const_cast`). -/
def GetFunction (env : MonoEnvObjects) (this : IMonoDelegate) : Option Nat × IMonoDelegate :=
  match this.func with
  | none =>
      let f := env.GetDelegateFunction this.obj
      (f, { this with func := f })
  | some f => (some f, this)

end IMonoDelegate

/-! ## Example runtime and wrappers -/

/-- A class with the methods `Throws ()` and `Get ()`, the property `Health`
and the field `m_id`, child of the object class. -/
def invokeClass : MonoClassPtr :=
  .cls false [⟨"Throws", [], 40⟩, ⟨"Get", [], 41⟩, ⟨".ctor", [.MONO_TYPE_I4], 42⟩]
    [⟨"Health", 43⟩] [⟨"m_id", 44⟩] exampleObjectClass

/-- The `CScriptClass` that wraps `invokeClass`, which lies at the address 7. -/
def exampleScriptClass : CScriptClass :=
  { m_pObject := 7, monoClass := invokeClass, m_name := "Actor" }

/-- A runtime in which `mono_object_new` returns the object 500, the method
`Throws` raises the exception 900, every other method returns the object 600,
the getter of a property returns 601 and a field holds 602. -/
def exampleRuntime : MonoRuntime :=
  { mono_object_new := some 500
    mono_runtime_invoke := fun pMethod _ _ =>
      if pMethod.name = "Throws" then (none, some 900) else (some 600, none)
    mono_runtime_invoke_array := fun pMethod _ _ =>
      if pMethod.name = "Throws" then (none, some 900) else (some 600, none)
    mono_property_get_value := fun _ _ => (some 601, none)
    mono_field_get_value_object := fun _ _ => some 602 }

/-- An interface that is running, with everything allocated. -/
def runningInterface : MonoInterface :=
  { running := true, broadcaster := true, assemblies := true, gc := true, objs := true,
    funcs := true, classCache := true, appDomain := true, listening := true }

/-- An interface that is not running and owns nothing. -/
def stoppedInterface : MonoInterface :=
  { running := false, broadcaster := false, assemblies := false, gc := false, objs := false,
    funcs := false, classCache := false, appDomain := false, listening := false }

/-- Delegates for the examples: the delegate 1 returns the object 10, the
delegate 2 raises the exception 900; the function wrapper made for the
delegate `d` lies at the address `100 + d`. -/
def exampleEnv : MonoEnvObjects :=
  { InvokeDelegate := fun d _ => if d = some 2 then (none, some 900) else (some 10, none)
    GetDelegateFunction := fun d =>
      match d with
      | some a => some (100 + a)
      | none => none }

/-! ## `MonoInterface::RegisterDefaultListeners` -/

/-- The listeners that `RegisterDefaultListeners` adds after the debug section,
by the name of their class, in the order of the `listeners.Add (new ...)`
lines. -/
def defaultListenersTail : List String :=
  [
    "CryMarshalInterop", "MeshOpsInterop", "BatchOps", "MouseInterop", "InputInterop",
    "ConsoleInterop", "ConsoleVariableInterop", "DebugDrawInterop", "ProfilingInterop",
    "ArchiveStreamInterop", "CryArchiveInterop", "CryFilesInterop", "AliasesInterop",
    "CryPakInterop", "AuxiliaryGeometryInterop", "RendererInterop", "TextureInterop",
    "CryFontInterop", "LocaleInterop", "LevelsInterop", "LevelSystemInterop", "LevelInterop",
    "TerrainInterop", "OceanInterop", "CryXmlNodeInterop", "MaterialInterop",
    "SubMaterialsInterop", "GeneralExtensionsInterop", "RenderShaderResourcesInterop",
    "ShaderParametersInterop", "ShaderInterop", "SurfaceTypeInterop",
    "SurfaceTypeEnumeratorInterop", "MaterialLayerCollectionInterop", "MaterialLayerInterop",
    "StackStringInterop", "ParticleParametersInterop", "ParticleEmitterInterop",
    "ParticleEffectInterop", "ParticleEffectIteratorInterop", "SplineInterop",
    "CrySyncInterop", "TimeOfDayInterop", "FlowGraphInterop", "EntityIdInterop",
    "EntityPoolInterop", "EntitySystemInterop", "NetEntityInterop", "CryEntityInterop",
    "EntitySlotsInterop", "MonoEntityInterop", "GameInterop", "ActionMapHandlerInterop",
    "ActionMapsInterop", "CryActionMapInterop", "CryInputActionInterop", "LightSourceInterop",
    "PhysicalWorldInterop", "PhysicalEntityInterop", "LatticeInterop", "IGeometryInterop",
    "WriteLockCondInterop", "PhysicalBodyInterop", "RayInterop", "StaticSubObjectInterop",
    "StaticObjectInterop", "CMeshInterop", "IndexedMeshInterop", "RenderMeshInterop",
    "CharacterInterop", "DefaultSkeletonInterop", "CharacterInterop",
    "ParametricSamplerInterop", "CharacterAnimationInterop", "SkeletonAnimationInterop",
    "SkeletonPoseInterop", "AnimationSetInterop", "FacialEffectorControllerInterop",
    "FacialEffectorInterop", "CustomMarshalingInterop", "FaceIdentifierInterop",
    "FacialEffectorsLibraryInterop", "FacialModelInterop", "FaceStateInterop",
    "PhonemeLibraryInterop", "FacialSentenceInterop", "FacialAnimationChannelInterop",
    "FacialAnimationSequenceInterop", "FacialAnimationSkeletonAnimationEntryInterop",
    "FacialAnimationSoundEntryInterop", "FaceInterop", "FacialAnimationInterop",
    "AttachmentManagerInterop", "AttachedObjectsCommonsInterop",
    "AttachmentRowSimulationParametersInterop", "AttachmentSimulationParametersInterop",
    "AttachmentSocketInterop", "AttachmentSkinInterop", "AttachmentProxyInterop",
    "AudioSystemInterop", "CryAudioProxyInterop", "DecalInterop", "CryEntityAreaProxyInterop",
    "CryEntityAudioProxyInterop", "CryEntityCameraProxyInterop",
    "CryEntityPhysicalProxyInterop", "CryEntityRenderProxyInterop",
    "CryEntityRopeProxyInterop", "CryEntitySubstitutionProxyInterop",
    "CryEntityTriggerProxyInterop", "CryEntityProxiesInterop", "GameRulesInterop",
    "PostProcessingInterop", "CryViewInterop", "ViewControllerInterop", "SystemEventsInterop",
    "CryNetChannelInterop", "ChannelIdInterop", "MeshObjectInterop"]

/-- `MonoInterface::RegisterDefaultListeners`: the names of the classes of the
listeners added to `broadcaster->listeners`, in order. `debug` says whether
`_DEBUG` is defined. -/
def RegisterDefaultListeners (debug : Bool) : List String :=
  ["TimingInterop", "MathHelpersInterop"] ++
    (if debug then ["DebugEventReporter"] else []) ++ defaultListenersTail

/-! ## `MouseInterop::OnHardwareMouseEvent` -/

/-- The hardware mouse events of the engine (`EHARDWAREMOUSEEVENT`); a value
that is none of the named ones is `other`. -/
inductive EHARDWAREMOUSEEVENT where
  | HARDWAREMOUSEEVENT_MOVE
  | HARDWAREMOUSEEVENT_LBUTTONDOWN
  | HARDWAREMOUSEEVENT_LBUTTONUP
  | HARDWAREMOUSEEVENT_LBUTTONDOUBLECLICK
  | HARDWAREMOUSEEVENT_RBUTTONDOWN
  | HARDWAREMOUSEEVENT_RBUTTONUP
  | HARDWAREMOUSEEVENT_RBUTTONDOUBLECLICK
  | HARDWAREMOUSEEVENT_MBUTTONDOWN
  | HARDWAREMOUSEEVENT_MBUTTONUP
  | HARDWAREMOUSEEVENT_MBUTTONDOUBLECLICK
  | HARDWAREMOUSEEVENT_WHEEL
  | other (value : Nat)
  deriving DecidableEq, Repr

/-- A call of a managed handler of the mouse interop class through its
unmanaged thunk: the name the thunk was resolved with (`GetFunction (name,
-1)`) and the arguments. -/
structure MouseThunkCall where
  handler : String
  args : List Int
  deriving DecidableEq, Repr

/-- `MouseInterop::OnHardwareMouseEvent`: the handlers called, in order. The
static thunks are `rmbd`, `rmbu`, `rmbdd` (`OnRightMouseButton...`), `lmbd`,
`lmbu`, `lmbdd` (`OnLeftMouseButton...`), `mmbd`, `mmbu`, `mmbdd`
(`OnMiddleMouseButton...`), `moveM` (`OnMove`) and `wheel` (`OnWheel`). -/
def OnHardwareMouseEvent (iX iY : Int) (eHardwareMouseEvent : EHARDWAREMOUSEEVENT)
    (wheelDelta : Int) : List MouseThunkCall :=
  let rmbd := "OnRightMouseButtonDown"
  let rmbu := "OnRightMouseButtonUp"
  let rmbdd := "OnRightMouseButtonDoubleClick"
  let lmbd := "OnLeftMouseButtonDown"
  let lmbu := "OnLeftMouseButtonUp"
  let lmbdd := "OnLeftMouseButtonDoubleClick"
  let mmbd := "OnMiddleMouseButtonDown"
  let mmbu := "OnMiddleMouseButtonUp"
  let mmbdd := "OnMiddleMouseButtonDoubleClick"
  let moveM := "OnMove"
  let wheel := "OnWheel"
  match eHardwareMouseEvent with
  | .HARDWAREMOUSEEVENT_MOVE => [⟨moveM, [iX, iY]⟩]
  | .HARDWAREMOUSEEVENT_LBUTTONDOWN => [⟨rmbd, [iX, iY]⟩]
  | .HARDWAREMOUSEEVENT_LBUTTONUP => [⟨rmbu, [iX, iY]⟩]
  | .HARDWAREMOUSEEVENT_LBUTTONDOUBLECLICK => [⟨rmbdd, [iX, iY]⟩]
  | .HARDWAREMOUSEEVENT_RBUTTONDOWN => [⟨lmbd, [iX, iY]⟩]
  | .HARDWAREMOUSEEVENT_RBUTTONUP => [⟨lmbu, [iX, iY]⟩]
  | .HARDWAREMOUSEEVENT_RBUTTONDOUBLECLICK => [⟨lmbdd, [iX, iY]⟩]
  | .HARDWAREMOUSEEVENT_MBUTTONDOWN => [⟨mmbd, [iX, iY]⟩]
  | .HARDWAREMOUSEEVENT_MBUTTONUP => [⟨mmbu, [iX, iY]⟩]
  | .HARDWAREMOUSEEVENT_MBUTTONDOUBLECLICK => [⟨mmbdd, [iX, iY]⟩]
  | .HARDWAREMOUSEEVENT_WHEEL => [⟨wheel, [wheelDelta]⟩]
  | .other _ => []

/-! ## `MonoFlowNode` -/

/-- A `MonoGCHandle` as `MonoFlowNode` uses it: the property `IsValid` and the
property `Object` (the object the handle refers to, or null). -/
structure MonoGCHandle where
  IsValid : Bool
  Object : Option MonoObjectRef
  deriving DecidableEq, Repr

/-- The data types of flow graph ports (`EFlowDataTypes` of the engine). -/
inductive EFlowDataTypes where
  | eFDT_Any
  | eFDT_Void
  | eFDT_Int
  | eFDT_Float
  | eFDT_EntityId
  | eFDT_Vec3
  | eFDT_String
  | eFDT_Bool
  deriving DecidableEq, Repr

/-- The payload of a `TFlowInputData`: nothing (default constructed), or a
value of one of the port types. Floating-point numbers are kept as their bit
patterns. -/
inductive TFlowInputData where
  | empty
  | int32 (value : Int)
  | float (bits : Nat)
  | entityId (id : Nat)
  | text (value : String)
  | vec3 (x y z : Nat)
  | bool (value : Bool)
  deriving DecidableEq, Repr

/-- The `MonoFlowData` that managed code fills in: the data type and the
members of the value. -/
structure MonoFlowData where
  DataType : EFlowDataTypes
  Integer32 : Int
  Float : Nat
  EntityId : Nat
  text : String
  Vector3 : Nat × Nat × Nat
  Bool : Bool
  deriving DecidableEq, Repr

/-- The engine's `SInputPortConfig`. -/
structure SInputPortConfig where
  name : Option String
  humanName : Option String
  description : Option String
  sUIConfig : Option String
  defaultData : TFlowInputData
  deriving DecidableEq, Repr

/-- The engine's `SOutputPortConfig`; `type` is `none` in a default constructed
entry. -/
structure SOutputPortConfig where
  name : Option String
  humanName : Option String
  description : Option String
  type : Option EFlowDataTypes
  deriving DecidableEq, Repr

/-- `struct MonoFlowPortConfig`. -/
structure MonoFlowPortConfig where
  name : Option String
  humanName : Option String
  description : Option String
  enumConfig : Option String
  defaultValue : MonoFlowData
  deriving DecidableEq, Repr

/-- `MonoFlowPortConfig::ToInput`. -/
def MonoFlowPortConfig.ToInput (this : MonoFlowPortConfig) : SInputPortConfig :=
  { name := this.name
    humanName := this.humanName
    description := this.description
    sUIConfig := this.enumConfig
    defaultData :=
      match this.defaultValue.DataType with
      | .eFDT_Int => .int32 this.defaultValue.Integer32
      | .eFDT_Float => .float this.defaultValue.Float
      | .eFDT_EntityId => .entityId this.defaultValue.EntityId
      | .eFDT_String => .text this.defaultValue.text
      | .eFDT_Vec3 =>
          .vec3 this.defaultValue.Vector3.1 this.defaultValue.Vector3.2.1
            this.defaultValue.Vector3.2.2
      | .eFDT_Bool => .bool this.defaultValue.Bool
      | _ => .empty }

/-- `MonoFlowPortConfig::ToOutput`. -/
def MonoFlowPortConfig.ToOutput (this : MonoFlowPortConfig) : SOutputPortConfig :=
  { name := this.name
    humanName := this.humanName
    description := this.description
    type := some this.defaultValue.DataType }

/-- `struct MonoFlowNodeConfig`, what the managed `GetConfiguration` fills in. -/
structure MonoFlowNodeConfig where
  description : Option String
  inputs : List MonoFlowPortConfig
  outputs : List MonoFlowPortConfig
  flags : Nat
  deriving DecidableEq, Repr

/-- The engine's `SFlowNodeConfig`; a null pointer is `none`. -/
structure SFlowNodeConfig where
  pInputPorts : Option (List SInputPortConfig)
  pOutputPorts : Option (List SOutputPortConfig)
  nFlags : Nat
  sDescription : Option String
  sUIClassName : Option String
  deriving DecidableEq, Repr

/-- The flow graph events (`EFlowEvent` of the engine); a value that is none of
the named ones is `other`. -/
inductive EFlowEvent where
  | eFE_Update
  | eFE_Activate
  | eFE_FinalActivate
  | eFE_PrecacheResources
  | eFE_Initialize
  | eFE_FinalInitialize
  | eFE_SetEntityId
  | eFE_Suspend
  | eFE_Resume
  | eFE_ConnectInputPort
  | eFE_DisconnectInputPort
  | eFE_ConnectOutputPort
  | eFE_DisconnectOutputPort
  | eFE_DontDoAnythingWithThisPlease
  | other (value : Nat)
  deriving DecidableEq, Repr

/-- An input port in `SActivationInfo::pInputPorts`: its user flag
(`IsUserFlagSet ()`) and its data. -/
structure InputPort where
  userFlag : Bool
  data : TFlowInputData
  deriving DecidableEq, Repr

/-- What `ProcessEvent` reads from `SActivationInfo`: the number of input ports
of the node (`pGraph->GetNodeData (myID)->GetNumInputPorts ()`, an `int`), the
input ports by index, the identifier of the entity and `connectPort`. -/
structure SActivationInfo where
  numInputPorts : Int
  pInputPorts : Nat → InputPort
  entityId : Nat
  connectPort : Nat

/-- What a `MonoFlowNode` does to the outside, in order: calls of the raw
thunks of the managed class `FlowNode` (named as the managed method), and
calls of the GC, of the array factory and of `new` and `delete`. -/
inductive FlowEffect where
  | Create (typeId myID : Nat)
  | Release (obj : Option MonoObjectRef)
  | GetConfiguration (obj : Option MonoObjectRef)
  | SaveData (obj : Option MonoObjectRef)
  | LoadData (obj : Option MonoObjectRef)
  | Serialize (obj : Option MonoObjectRef)
  | PostSerialize (obj : Option MonoObjectRef)
  | Update (obj : Option MonoObjectRef)
  | Activate (obj : Option MonoObjectRef) (ids : List Nat) (values : List TFlowInputData)
  | PrecacheResourcesInternal (obj : Option MonoObjectRef)
  | Initialize (obj : Option MonoObjectRef)
  | PostInitialize (obj : Option MonoObjectRef)
  | SetEntityId (obj : Option MonoObjectRef) (id : Nat)
  | Suspend (obj : Option MonoObjectRef)
  | Resume (obj : Option MonoObjectRef)
  | ConnectInputPort (obj : Option MonoObjectRef) (port : Nat)
  | DisconnectInputPort (obj : Option MonoObjectRef) (port : Nat)
  | ConnectOutputPort (obj : Option MonoObjectRef) (port : Nat)
  | DisconnectOutputPort (obj : Option MonoObjectRef) (port : Nat)
  | gcKeep (obj : Option MonoObjectRef)
  | gcPin
  | arraysCreate (length : Nat)
  | newInputPorts (length : Nat)
  | newOutputPorts (length : Nat)
  | deleteThis
  deriving DecidableEq, Repr

/-- Whether the effect is a call into managed code through a thunk. -/
def FlowEffect.isManagedCall : FlowEffect → Bool
  | .gcKeep _ => false
  | .gcPin => false
  | .arraysCreate _ => false
  | .newInputPorts _ => false
  | .newOutputPorts _ => false
  | .deleteThis => false
  | _ => true

/-- The members of a `MonoFlowNode`. -/
structure MonoFlowNode where
  refCount : Int
  objHandle : MonoGCHandle
  targetsEntity : Bool
  nodeConfig : SFlowNodeConfig
  deriving DecidableEq, Repr

/-- The managed side as `MonoFlowNode` sees it: what the thunks `Create`,
`GetConfiguration`, `SaveData` and `LoadData` answer, and the handle that
`MonoEnv->GC->Keep` returns. -/
structure FlowNodeEnv where
  Create : Nat → Nat → Option MonoObjectRef
  GetConfiguration : Option MonoObjectRef → MonoFlowNodeConfig
  SaveData : Option MonoObjectRef → Bool
  LoadData : Option MonoObjectRef → Bool
  Keep : Option MonoObjectRef → MonoGCHandle

namespace MonoFlowNode

/-- The constructor `MonoFlowNode::MonoFlowNode (typeId, info, cancel)`: the node
it leaves, the value of `cancel` on exit and what it did. The members start
as `refCount (0)`, `objHandle (-1)` (an invalid handle) and
`targetsEntity (false)`; `nodeConfig` is default constructed, `defaultConfig`.
The statements after the `if` are not in an `else` branch. -/
def construct (env : FlowNodeEnv) (defaultConfig : SFlowNodeConfig) (typeId myID : Nat) :
    MonoFlowNode × Bool × List FlowEffect :=
  let obj := env.Create typeId myID
  let onNull : List FlowEffect :=
    match obj with
    | none => [.deleteThis]
    | some _ => []
  ({ refCount := 0, objHandle := env.Keep obj, targetsEntity := false,
     nodeConfig := defaultConfig },
   false,
   [.Create typeId myID] ++ onNull ++ [.gcKeep obj])

/-- The destructor `MonoFlowNode::~MonoFlowNode`. -/
def destruct (this : MonoFlowNode) : List FlowEffect :=
  if this.objHandle.IsValid then [.Release this.objHandle.Object] else []

/-- `MonoFlowNode::GetConfiguration (config)`: the node afterwards, the
configuration written to `config` and what the call did.
`EFLN_TARGET_ENTITY` is a flag constant of the engine. -/
def GetConfiguration (env : FlowNodeEnv) (EFLN_TARGET_ENTITY : Nat) (this : MonoFlowNode) :
    MonoFlowNode × SFlowNodeConfig × List FlowEffect :=
  if this.nodeConfig.sUIClassName != none || !this.objHandle.IsValid then
    (this, this.nodeConfig, [])
  else
    let conf := env.GetConfiguration this.objHandle.Object
    let inputConfs := conf.inputs.map MonoFlowPortConfig.ToInput ++
      [{ name := none, humanName := none, description := none, sUIConfig := none,
         defaultData := .empty }]
    let outputConfs := conf.outputs.map MonoFlowPortConfig.ToOutput ++
      [{ name := none, humanName := none, description := none, type := none }]
    let config : SFlowNodeConfig :=
      { nFlags := conf.flags
        sDescription := conf.description
        sUIClassName := some ""
        pInputPorts := some inputConfs
        pOutputPorts := some outputConfs }
    ({ this with
        targetsEntity := (conf.flags &&& EFLN_TARGET_ENTITY) != 0
        nodeConfig := config },
     config,
     [.GetConfiguration this.objHandle.Object, .gcPin, .gcPin,
      .newInputPorts (conf.inputs.length + 1), .newOutputPorts (conf.outputs.length + 1)])

/-- `MonoFlowNode::SerializeXML`: the value returned and what the call did. -/
def SerializeXML (env : FlowNodeEnv) (this : MonoFlowNode) (reading : Bool) :
    Bool × List FlowEffect :=
  if !this.objHandle.IsValid then (true, [])
  else if reading then
    (env.LoadData this.objHandle.Object, [.LoadData this.objHandle.Object])
  else (env.SaveData this.objHandle.Object, [.SaveData this.objHandle.Object])

/-- `MonoFlowNode::Serialize`. -/
def Serialize (this : MonoFlowNode) : List FlowEffect :=
  if !this.objHandle.IsValid then [] else [.Serialize this.objHandle.Object]

/-- `MonoFlowNode::PostSerialize`. -/
def PostSerialize (this : MonoFlowNode) : List FlowEffect :=
  if !this.objHandle.IsValid then [] else [.PostSerialize this.objHandle.Object]

/-- The loop `for (byte i = 0; i < portCount; i++)` of the `eFE_Activate` case
from the counter value `i` on, with the identifiers collected so far: the
counter is a `byte` and wraps at 256, the bound is an `int`. `none` when the
fuel does not suffice. -/
def collectIds (portCount : Int) (pInputPorts : Nat → InputPort) :
    Nat → Nat → List Nat → Option (List Nat)
  | 0, _, _ => none
  | fuel + 1, i, listIds =>
      if (i : Int) < portCount then
        collectIds portCount pInputPorts fuel ((i + 1) % 256)
          (if (pInputPorts i).userFlag then listIds ++ [i] else listIds)
      else some listIds

/-- The loop `for (byte i = 0; i < listIds.Length; i++)` of the `eFE_Activate`
case from the counter value `i` on, with the elements of `ids` and `values`
written so far (`ids[i] = listIds[i]; values[i] = pInputPorts[listIds[i]]`).
`none` when the fuel does not suffice. -/
def fillArrays (listIds : List Nat) (pInputPorts : Nat → InputPort) :
    Nat → Nat → List Nat → List TFlowInputData → Option (List Nat × List TFlowInputData)
  | 0, _, _, _ => none
  | fuel + 1, i, ids, values =>
      if i < listIds.length then
        let id := listIds.getD i 0
        fillArrays listIds pInputPorts fuel ((i + 1) % 256) (ids ++ [id])
          (values ++ [(pInputPorts id).data])
      else some (ids, values)

/-- A value as a 32-bit `int` holds it (two's complement): the value itself
when it lies between `-2^31` and `2^31 - 1`, wrapped into that range
otherwise. -/
def wrapInt32 (v : Int) : Int :=
  (v + 2147483648) % 4294967296 - 2147483648

/-- `MonoFlowNode::ProcessEvent (event, actInfo)`: what the call did, `none`
when the fuel given to the loops of the `eFE_Activate` case does not
suffice. `portCount` is a 32-bit `int`, and so is what `portCount--` leaves
in it. -/
def ProcessEvent (fuel : Nat) (this : MonoFlowNode) (event : EFlowEvent)
    (actInfo : SActivationInfo) : Option (List FlowEffect) :=
  if !this.objHandle.IsValid then some []
  else
    let obj := this.objHandle.Object
    match event with
    | .eFE_Update => some [.Update obj]
    | .eFE_Activate =>
        let portCount : Int :=
          if this.targetsEntity then wrapInt32 (wrapInt32 actInfo.numInputPorts - 1)
          else wrapInt32 actInfo.numInputPorts
        match collectIds portCount actInfo.pInputPorts fuel 0 [] with
        | none => none
        | some listIds =>
            match fillArrays listIds actInfo.pInputPorts fuel 0 [] [] with
            | none => none
            | some (ids, values) =>
                some [.arraysCreate listIds.length, .arraysCreate listIds.length, .gcPin,
                  .gcPin, .Activate obj ids values]
    | .eFE_FinalActivate => some []
    | .eFE_PrecacheResources => some [.PrecacheResourcesInternal obj]
    | .eFE_Initialize => some [.Initialize obj]
    | .eFE_FinalInitialize => some [.PostInitialize obj]
    | .eFE_SetEntityId => some [.SetEntityId obj actInfo.entityId]
    | .eFE_Suspend => some [.Suspend obj]
    | .eFE_Resume => some [.Resume obj]
    | .eFE_ConnectInputPort => some [.ConnectInputPort obj actInfo.connectPort]
    | .eFE_DisconnectInputPort => some [.DisconnectInputPort obj actInfo.connectPort]
    | .eFE_ConnectOutputPort => some [.ConnectOutputPort obj actInfo.connectPort]
    | .eFE_DisconnectOutputPort => some [.DisconnectOutputPort obj actInfo.connectPort]
    | .eFE_DontDoAnythingWithThisPlease => some []
    | .other _ => some []

end MonoFlowNode

/-! ## Example flow nodes -/

/-- A default constructed `SFlowNodeConfig`: all pointers null. -/
def emptyNodeConfig : SFlowNodeConfig :=
  { pInputPorts := none, pOutputPorts := none, nFlags := 0, sDescription := none,
    sUIClassName := none }

/-- A managed side whose `Create` returns null: `Keep` of null gives an invalid
handle, `Keep` of an object a valid one. -/
def failingFlowEnv : FlowNodeEnv :=
  { Create := fun _ _ => none
    GetConfiguration := fun _ => ⟨none, [], [], 0⟩
    SaveData := fun _ => true
    LoadData := fun _ => true
    Keep := fun obj => ⟨obj.isSome, obj⟩ }

/-- A managed side whose `Create` returns the object 70 and whose
`GetConfiguration` describes a node with one integer input port and one
output port, flags 1. -/
def exampleFlowEnv : FlowNodeEnv :=
  { Create := fun _ _ => some 70
    GetConfiguration := fun _ =>
      ⟨some "Adds one", [⟨some "In", none, none, none, ⟨.eFDT_Int, 5, 0, 0, "", (0, 0, 0), false⟩⟩],
        [⟨some "Out", none, none, none, ⟨.eFDT_Int, 0, 0, 0, "", (0, 0, 0), false⟩⟩], 1⟩
    SaveData := fun _ => true
    LoadData := fun _ => false
    Keep := fun obj => ⟨obj.isSome, obj⟩ }

/-- A node with the valid handle of the object 70 and no configuration yet. -/
def validNode : MonoFlowNode :=
  { refCount := 0, objHandle := ⟨true, some 70⟩, targetsEntity := false,
    nodeConfig := emptyNodeConfig }

/-- A node with an invalid handle. -/
def invalidNode : MonoFlowNode :=
  { refCount := 0, objHandle := ⟨false, none⟩, targetsEntity := false,
    nodeConfig := emptyNodeConfig }

/-- An activation of a node with four input ports of which the ports 1 and 3
have their user flag set; the port `i` holds the integer `10 * i`. -/
def fourPortInfo : SActivationInfo :=
  { numInputPorts := 4
    pInputPorts := fun i => ⟨i = 1 || i = 3, .int32 (10 * i)⟩
    entityId := 9
    connectPort := 0 }

/-- An activation of a node with 256 input ports, none of them flagged. -/
def manyPortInfo : SActivationInfo :=
  { numInputPorts := 256
    pInputPorts := fun _ => ⟨false, .empty⟩
    entityId := 9
    connectPort := 0 }

/-! ## The member search as a loop with fuel -/

/-- The `while (pClass != nullptr)` loop of the four lookups, one iteration per
unit of fuel, in the state (`pClass`, `pIterator`). `check` is the verdict of
the loop body on the member handed out by the iterator: `.ok true` returns
it, `.ok false` goes on to the next iteration, an error is an invalid
access. The result is what the function returns together with the members
that the iterators handed out, in order; it is `none` when the fuel does not
suffice. -/
def memberLoop {α ε : Type} (members : MonoClassPtr → List α) (check : α → Except ε Bool) :
    Nat → MonoClassPtr → List α → Option (Except ε (Option α) × List α)
  | 0, _, _ => none
  | _ + 1, .nullptr, _ => some (.ok none, [])
  | fuel + 1, .cls _ _ _ _ parent, [] =>
      if parent.isObject then some (.ok none, [])
      else memberLoop members check fuel parent (members parent)
  | fuel + 1, .cls o ms ps fs parent, pCur :: rest =>
      match check pCur with
      | .error fault => some (.error fault, [pCur])
      | .ok true => some (.ok (some pCur), [pCur])
      | .ok false =>
          match memberLoop members check fuel (.cls o ms ps fs parent) rest with
          | some (r, visited) => some (r, pCur :: visited)
          | none => none

/-- The verdict of the body of the `while` loop of
`GetMonoMethod (const char *, IMonoArray *)` on the method `pCurMethod`. -/
def argsVerdict (methodName : String) (pArgs : Option IMonoArray) (pCurMethod : MonoMethod) :
    Except ArrayFault Bool :=
  let signatureParamCount := pCurMethod.paramCount
  let bCorrectName := pCurMethod.name == methodName
  if bCorrectName && signatureParamCount == 0 && suppliedArgsCount pArgs == 0 then .ok true
  else if bCorrectName && decide (signatureParamCount ≥ suppliedArgsCount pArgs) then
    checkParams pArgs (suppliedArgsCount pArgs) 0 pCurMethod.params
  else .ok false

/-- The first member of a list on which the verdict is not `.ok false`, as the
result of a lookup. -/
def firstVerdict {α ε : Type} (check : α → Except ε Bool) : List α → Except ε (Option α)
  | [] => .ok none
  | a :: l =>
      match check a with
      | .error fault => .error fault
      | .ok true => .ok (some a)
      | .ok false => firstVerdict check l

/-- The members of a list up to and including the first one on which the
verdict is not `.ok false`. -/
def visitedUntilVerdict {α ε : Type} (check : α → Except ε Bool) : List α → List α
  | [] => []
  | a :: l =>
      match check a with
      | .ok false => a :: visitedUntilVerdict check l
      | _ => [a]

/-- The fuel that suffices for a lookup on `pClass`: one iteration for each
member of the walk, one for each class of the base chain, and one more. -/
def lookupFuel {α : Type} (members : MonoClassPtr → List α) (pClass : MonoClassPtr) : Nat :=
  (searchOrder members pClass).length + (baseChain pClass).length + 1

/-! ## Object handles -/

/-- Modelled from the spec: the kinds of `ObjectHandle` of section 3, "one of
strong (object kept alive, may be relocated by GC), pinned (object kept alive
and fixed in memory), weak (not ownership)". The handle manager behind
`MonoEnv->GC` is not among the sources. -/
inductive HandleKind where
  | strong
  | pinned
  | weak
  deriving DecidableEq, Repr

/-- Modelled from the spec: a managed object, with the logical identity that a
relocation preserves, its current address and the values of its fields. -/
structure ManagedObject where
  id : Nat
  address : Nat
  fields : List (String × Int)
  deriving DecidableEq, Repr

/-- Modelled from the spec: the managed heap with the handle table that the
Object Lifetime Manager owns; the handle `n` is the entry `n` of the table,
the kind of the handle and the identity of its target. -/
structure ManagedHeap where
  objects : List ManagedObject
  handles : List (HandleKind × Nat)
  deriving DecidableEq, Repr

namespace ManagedHeap

/-- Modelled from the spec: `Keep (object) -> strong handle`. -/
def Keep (heap : ManagedHeap) (target : Nat) : ManagedHeap × Nat :=
  ({ heap with handles := heap.handles ++ [(.strong, target)] }, heap.handles.length)

/-- Modelled from the spec: an object is kept reachable by a live strong or
pinned handle; "weak handles never extend lifetime". -/
def isHeld (heap : ManagedHeap) (target : Nat) : Bool :=
  heap.handles.any (fun e => e.1 != .weak && e.2 == target)

/-- Modelled from the spec: an object is fixed in memory by a pinned handle. -/
def isPinned (heap : ManagedHeap) (target : Nat) : Bool :=
  heap.handles.any (fun e => e.1 == .pinned && e.2 == target)

/-- Modelled from the spec: a collection cycle frees the objects that no strong
or pinned handle holds and "may relocate any non-pinned object", here by
`relocate` on addresses. -/
def Collect (relocate : Nat → Nat) (heap : ManagedHeap) : ManagedHeap :=
  { heap with
    objects := (heap.objects.filter (fun o => heap.isHeld o.id)).map (fun o =>
      if heap.isPinned o.id then o else { o with address := relocate o.address }) }

/-- Modelled from the spec: the property `Object` of a handle: the target where
it is now, or null when the handle is not in the table or the target was
collected. -/
def handleObject (heap : ManagedHeap) (handle : Nat) : Option ManagedObject :=
  match heap.handles.get? handle with
  | some e => heap.objects.find? (fun o => o.id == e.2)
  | none => none

end ManagedHeap

/-- The heap of the handle test: the test object 1 at the address 1000 with
the field `Number`, and an object 2 that nothing holds. -/
def testHeap : ManagedHeap :=
  { objects := [⟨2, 900, [("Number", 7)]⟩, ⟨1, 1000, [("Number", 34)]⟩], handles := [] }

/-! ## The documented member resolver -/

/-- Modelled from the spec: rule 1 of the Member Resolver (section 4.2), "Name
equality (case-sensitive) - a null/empty query name matches any"; the
declaration of `IMonoClass::GetFunction (const char *name, int paramCount)`
says of `name`: "If null, then any name will suffice". The implementation of
that lookup is not among the sources. A null query name is `none`. -/
def nameMatches (query : Option String) (memberName : String) : Bool :=
  match query with
  | none => true
  | some q => q == "" || memberName == q

/-- Modelled from the spec: the parameter count rule of the lookup by name and
count, "exact match required when the caller supplies an exact argument
count"; the declaration of `IMonoClass::GetFunction (const char *name, int
paramCount)` says of `paramCount`: "If it's equal to -1 then parameter count is
ignored". The implementation is not among the sources. -/
def countMatches (paramCount : Int) (declared : Nat) : Bool :=
  paramCount == -1 || (declared : Int) == paramCount

/-- Modelled from the spec: `Resolve (TypeDescriptor, name, ArgumentSpec,
searchBase)` of section 4.2 for any kind of member: "walk the type's own member
list, then its base chain (stop at the sentinel root object type ...)", "the
first signature (in declaration order, own type before base types) satisfying
all checks is returned", and "if `searchBase` is false, stop at the declaring
type without checking ancestors". `none` is `NotFound`. No lookup among the
sources takes a `searchBase` argument. -/
def ResolveMember {α : Type} (members : MonoClassPtr → List α) (test : α → Bool)
    (pClass : MonoClassPtr) (searchBase : Bool) : Option α :=
  (if searchBase then searchOrder members pClass else members pClass).find? test

/-- Modelled from the spec: `Resolve` for methods by name and parameter count,
with the name rule `nameMatches` and the count rule `countMatches`. -/
def Resolve (pClass : MonoClassPtr) (name : Option String) (paramCount : Int)
    (searchBase : Bool) : Option MonoMethod :=
  ResolveMember MonoClassPtr.getMethods
    (fun m => nameMatches name m.name && countMatches paramCount m.paramCount)
    pClass searchBase

/-- Modelled from the spec: `IMonoClass::GetFunction (const char *name, int
paramCount)`, "Gets the first method that matches given description", whose
implementation is not among the sources: the resolver of section 4.2 with its
default `searchBase = true`. -/
def GetFunction (pClass : MonoClassPtr) (name : Option String) (paramCount : Int) :
    Option MonoMethod :=
  Resolve pClass name paramCount true

/-! ## Lemmas about the shared loop -/

theorem scanMembers_eq {α : Type} (test : α → Bool) (l : List α) (k : Option α) :
    scanMembers test l k = (l.find? test).or k := by
  induction l with
  | nil => simp [scanMembers]
  | cons a l ih =>
      by_cases h : test a = true
      · simp [scanMembers, h]
      · simp [scanMembers, h, ih]

theorem walkMembers_cls {α : Type} (members : MonoClassPtr → List α) (test : α → Bool)
    (parent : MonoClassPtr) :
    ∀ (o : Bool) (ms : List MonoMethod) (ps : List MonoProperty) (fs : List MonoClassField)
      (pIterator : List α),
      walkMembers members test (.cls o ms ps fs parent) pIterator =
        (pIterator ++ inheritedMembers members parent).find? test := by
  induction parent with
  | nullptr =>
      intro o ms ps fs pIterator
      simp [walkMembers, scanMembers_eq, inheritedMembers, MonoClassPtr.isObject]
  | cls o2 ms2 ps2 fs2 parent2 ih =>
      intro o ms ps fs pIterator
      cases o2 with
      | true =>
          simp [walkMembers, scanMembers_eq, inheritedMembers, MonoClassPtr.isObject]
      | false =>
          have h := ih false ms2 ps2 fs2 (members (.cls false ms2 ps2 fs2 parent2))
          rw [walkMembers]
          simp only [MonoClassPtr.isObject, Bool.false_eq_true, if_false]
          rw [h]
          simp [scanMembers_eq, inheritedMembers]

theorem walkMembers_eq_find {α : Type} (members : MonoClassPtr → List α) (test : α → Bool)
    (hnull : members .nullptr = []) (pClass : MonoClassPtr) :
    walkMembers members test pClass (members pClass) = (searchOrder members pClass).find? test := by
  cases pClass with
  | nullptr => simp [walkMembers, searchOrder, hnull, inheritedMembers, MonoClassPtr.getParent]
  | cls o ms ps fs parent =>
      rw [walkMembers_cls]
      rfl

theorem GetMonoMethod_eq_find (pClass : MonoClassPtr) (methodName : String) (numParams : Int) :
    GetMonoMethod pClass methodName numParams =
      (methodSearchOrder pClass).find? (matchesCount methodName numParams) :=
  walkMembers_eq_find MonoClassPtr.getMethods _ rfl pClass

theorem GetMonoProperty_eq_find (pClass : MonoClassPtr) (name : String) :
    GetMonoProperty pClass name =
      (propertySearchOrder pClass).find? (fun p => p.name == name) :=
  walkMembers_eq_find MonoClassPtr.getProperties _ rfl pClass

theorem GetMonoField_eq_find (pClass : MonoClassPtr) (name : String) :
    GetMonoField pClass name =
      (fieldSearchOrder pClass).find? (fun f => f.name == name) :=
  walkMembers_eq_find MonoClassPtr.getFields _ rfl pClass

theorem matchesCount_iff (methodName : String) (numParams : Int) (m : MonoMethod) :
    matchesCount methodName numParams m = true ↔
      m.name = methodName ∧ (m.paramCount : Int) = numParams := by
  simp [matchesCount]

/-! ## Lemmas about the lookup by arguments -/

theorem paramMismatch_eq (t : MonoTypeEnum) (a : EMonoAnyType) :
    paramMismatch t a = !typeCompatible t a := by
  cases t <;> cases a <;> simp [paramMismatch, typeCompatible]

theorem GetItem_some_lt (items : IMonoArray) (i : Nat) (h : i < items.length) :
    GetItem (some items) i = .ok (items.get ⟨i, h⟩) := by
  simp [GetItem, List.getElem?_eq_getElem h]

theorem checkParams_some (items : IMonoArray) :
    ∀ (pIter : List MonoTypeEnum) (i : Nat), i < items.length →
      checkParams (some items) items.length i pIter =
        .ok (decide (items.length - i ≤ pIter.length) &&
          (List.zip pIter (items.drop i)).all (fun ti => itemCompatible ti.1 ti.2)) := by
  intro pIter
  induction pIter with
  | nil =>
      intro i hi
      have : ¬ (items.length - i ≤ 0) := by omega
      simp [checkParams, this]
  | cons t pIter ih =>
      intro i hi
      rw [checkParams, GetItem_some_lt items i hi, List.drop_eq_getElem_cons hi]
      simp only [List.zip_cons_cons, List.all_cons, List.length_cons, List.get_eq_getElem]
      by_cases hlast : i + 1 = items.length
      · have h1 : items.length - i ≤ pIter.length + 1 := by omega
        have h2 : List.drop (i + 1) items = [] := by
          apply List.drop_eq_nil_of_le; omega
        cases hitem : items[i] with
        | none => simp [hlast, h1, h2, itemCompatible]
        | some pItem =>
            by_cases hmis : paramMismatch t pItem.anyType = true
            · have hc : typeCompatible t pItem.anyType = false := by
                rw [paramMismatch_eq] at hmis; simpa using hmis
              simp [hmis, itemCompatible, hc]
            · have hc : typeCompatible t pItem.anyType = true := by
                rw [paramMismatch_eq] at hmis; simpa using hmis
              simp [hmis, hlast, h1, h2, itemCompatible, hc]
      · have hi2 : i + 1 < items.length := by omega
        have hdec : decide (items.length - i ≤ pIter.length + 1) =
            decide (items.length - (i + 1) ≤ pIter.length) := by
          apply decide_eq_decide.mpr; omega
        cases hitem : items[i] with
        | none =>
            simp only [hlast, if_false, ih (i + 1) hi2, itemCompatible, Bool.true_and, hdec]
        | some pItem =>
            by_cases hmis : paramMismatch t pItem.anyType = true
            · have hc : typeCompatible t pItem.anyType = false := by
                rw [paramMismatch_eq] at hmis; simpa using hmis
              simp [hmis, itemCompatible, hc]
            · have hc : typeCompatible t pItem.anyType = true := by
                rw [paramMismatch_eq] at hmis; simpa using hmis
              simp only [hmis, hlast, if_false, ih (i + 1) hi2, itemCompatible, hc, Bool.true_and,
                hdec, Bool.false_eq_true]

theorem scanMethodsArgs_some (methodName : String) (items : IMonoArray) (hk : 1 ≤ items.length)
    (l : List MonoMethod) (k : Except ArrayFault (Option MonoMethod)) :
    scanMethodsArgs methodName (some items) l k =
      match l.find? (acceptsArgs methodName items) with
      | some m => .ok (some m)
      | none => k := by
  induction l with
  | nil => simp [scanMethodsArgs]
  | cons m l ih =>
      have hsup : suppliedArgsCount (some items) = items.length := rfl
      have hne : ¬ (items.length = 0) := by omega
      rw [scanMethodsArgs]
      simp only [hsup]
      by_cases hname : (m.name == methodName) = true
      · by_cases hcount : items.length ≤ m.paramCount
        · have hcp := checkParams_some items m.params 0 (by omega)
          simp only [List.drop_zero, Nat.sub_zero] at hcp
          have hcount2 : items.length ≤ m.params.length := hcount
          by_cases hall : (List.zip m.params items).all (fun ti => itemCompatible ti.1 ti.2) = true
          · have hacc : acceptsArgs methodName items m = true := by
              simp [acceptsArgs, hname, hcount, hall]
            simp [hname, hne, hcount, hcp, hcount2, hall, hacc]
          · have hall2 : (List.zip m.params items).all (fun ti => itemCompatible ti.1 ti.2) = false := by
              simpa using hall
            have hacc : acceptsArgs methodName items m = false := by
              simp [acceptsArgs, hname, hcount, hall2]
            simp [hname, hne, hcount, hcp, hcount2, hall2, hacc, ih]
        · have hacc : acceptsArgs methodName items m = false := by
            simp [acceptsArgs, hname, hcount]
          simp [hname, hne, hcount, hacc, ih]
      · have hacc : acceptsArgs methodName items m = false := by
          simp [acceptsArgs, hname]
        simp [hname, hacc, ih]

theorem walkMethodsArgs_cls (methodName : String) (items : IMonoArray) (hk : 1 ≤ items.length)
    (parent : MonoClassPtr) :
    ∀ (o : Bool) (ms : List MonoMethod) (ps : List MonoProperty) (fs : List MonoClassField)
      (pIterator : List MonoMethod),
      walkMethodsArgs methodName (some items) (.cls o ms ps fs parent) pIterator =
        .ok ((pIterator ++ inheritedMembers MonoClassPtr.getMethods parent).find?
          (acceptsArgs methodName items)) := by
  induction parent with
  | nullptr =>
      intro o ms ps fs pIterator
      rw [walkMethodsArgs, scanMethodsArgs_some methodName items hk]
      simp [inheritedMembers, MonoClassPtr.isObject, walkMethodsArgs]
      cases List.find? (acceptsArgs methodName items) pIterator <;> rfl
  | cls o2 ms2 ps2 fs2 parent2 ih =>
      intro o ms ps fs pIterator
      rw [walkMethodsArgs, scanMethodsArgs_some methodName items hk]
      cases o2 with
      | true =>
          simp [inheritedMembers, MonoClassPtr.isObject]
          cases List.find? (acceptsArgs methodName items) pIterator <;> rfl
      | false =>
          have h := ih false ms2 ps2 fs2 (MonoClassPtr.getMethods (.cls false ms2 ps2 fs2 parent2))
          simp only [MonoClassPtr.isObject, Bool.false_eq_true, if_false]
          rw [h]
          simp [inheritedMembers]
          cases List.find? (acceptsArgs methodName items) pIterator <;> rfl

theorem GetMonoMethodArgs_eq_find (pClass : MonoClassPtr) (methodName : String)
    (items : IMonoArray) (hk : 1 ≤ items.length) :
    GetMonoMethodArgs pClass methodName (some items) =
      .ok ((methodSearchOrder pClass).find? (acceptsArgs methodName items)) := by
  cases pClass with
  | nullptr => rfl
  | cls o ms ps fs parent =>
      unfold GetMonoMethodArgs
      rw [walkMethodsArgs_cls methodName items hk]
      rfl

theorem zip_take_length_right {α β : Type} :
    ∀ (l₁ : List α) (l₂ : List β), List.zip (l₁.take l₂.length) l₂ = List.zip l₁ l₂
  | [], _ => by simp
  | _ :: _, [] => by simp
  | a :: l₁, b :: l₂ => by simp [zip_take_length_right l₁ l₂]

theorem all_zip_map_some :
    ∀ (params : List MonoTypeEnum) (args : List IMonoObject),
      (List.zip params (args.map some)).all (fun ti => itemCompatible ti.1 ti.2) =
        argsCompatible params args
  | [], _ => by simp [argsCompatible]
  | _ :: _, [] => by simp [argsCompatible]
  | t :: params, a :: args => by
      have ih := all_zip_map_some params args
      simp only [argsCompatible] at ih ⊢
      simp only [List.map_cons, List.zip_cons_cons, List.all_cons, ih]
      rfl

theorem acceptsArgs_map_some (methodName : String) (args : List IMonoObject) (m : MonoMethod) :
    acceptsArgs methodName (args.map some) m =
      (m.name == methodName && decide (args.length ≤ m.paramCount) &&
        argsCompatible (m.params.take args.length) args) := by
  have h : argsCompatible (m.params.take args.length) args = argsCompatible m.params args := by
    simp only [argsCompatible, zip_take_length_right]
  rw [h, ← all_zip_map_some]
  simp [acceptsArgs]

theorem scanMethodsArgs_ok_some (methodName : String) (pArgs : Option IMonoArray)
    (k : Except ArrayFault (Option MonoMethod)) (m : MonoMethod) :
    ∀ l : List MonoMethod, scanMethodsArgs methodName pArgs l k = .ok (some m) →
      (m ∈ l ∧ m.name = methodName ∧ suppliedArgsCount pArgs ≤ m.paramCount) ∨
        k = .ok (some m) := by
  intro l
  induction l with
  | nil => intro h; exact Or.inr (by simpa [scanMethodsArgs] using h)
  | cons a l ih =>
      intro h
      rw [scanMethodsArgs] at h
      split at h
      · rename_i hc
        simp only [Bool.and_eq_true, beq_iff_eq] at hc
        injection h with h; injection h with h; subst h
        exact Or.inl ⟨List.mem_cons_self _ _, hc.1.1, by rw [hc.2]; exact Nat.zero_le _⟩
      · split at h
        · rename_i hc
          simp only [Bool.and_eq_true, beq_iff_eq, decide_eq_true_eq] at hc
          split at h
          · cases h
          · injection h with h; injection h with h; subst h
            exact Or.inl ⟨List.mem_cons_self _ _, hc.1, hc.2⟩
          · rcases ih h with ⟨hm, hn⟩ | hk
            · exact Or.inl ⟨List.mem_cons_of_mem _ hm, hn⟩
            · exact Or.inr hk
        · rcases ih h with ⟨hm, hn⟩ | hk
          · exact Or.inl ⟨List.mem_cons_of_mem _ hm, hn⟩
          · exact Or.inr hk

theorem walkMethodsArgs_ok_some (methodName : String) (pArgs : Option IMonoArray)
    (m : MonoMethod) (parent : MonoClassPtr) :
    ∀ (o : Bool) (ms : List MonoMethod) (ps : List MonoProperty) (fs : List MonoClassField)
      (pIterator : List MonoMethod),
      walkMethodsArgs methodName pArgs (.cls o ms ps fs parent) pIterator = .ok (some m) →
        m ∈ pIterator ++ inheritedMembers MonoClassPtr.getMethods parent ∧
          m.name = methodName ∧ suppliedArgsCount pArgs ≤ m.paramCount := by
  induction parent with
  | nullptr =>
      intro o ms ps fs pIterator h
      rw [walkMethodsArgs] at h
      rcases scanMethodsArgs_ok_some methodName pArgs _ m pIterator h with ⟨hm, hn⟩ | hk
      · exact ⟨List.mem_append_left _ hm, hn⟩
      · simp [MonoClassPtr.isObject, walkMethodsArgs] at hk
  | cls o2 ms2 ps2 fs2 parent2 ih =>
      intro o ms ps fs pIterator h
      rw [walkMethodsArgs] at h
      rcases scanMethodsArgs_ok_some methodName pArgs _ m pIterator h with ⟨hm, hn⟩ | hk
      · exact ⟨List.mem_append_left _ hm, hn⟩
      · cases o2 with
        | true => simp [MonoClassPtr.isObject] at hk
        | false =>
            simp only [MonoClassPtr.isObject, Bool.false_eq_true, if_false] at hk
            have h2 := ih false ms2 ps2 fs2 _ hk
            refine ⟨List.mem_append_right _ ?_, h2.2⟩
            simpa [inheritedMembers] using h2.1

theorem GetMonoMethodArgs_ok_some (pClass : MonoClassPtr) (methodName : String)
    (pArgs : Option IMonoArray) (m : MonoMethod)
    (h : GetMonoMethodArgs pClass methodName pArgs = .ok (some m)) :
    m ∈ methodSearchOrder pClass ∧ m.name = methodName ∧
      suppliedArgsCount pArgs ≤ m.paramCount := by
  cases pClass with
  | nullptr => simp [GetMonoMethodArgs, walkMethodsArgs] at h
  | cls o ms ps fs parent =>
      exact walkMethodsArgs_ok_some methodName pArgs m parent o ms ps fs _ h

theorem GetMonoMethodArgs_compatible (pClass : MonoClassPtr) (methodName : String)
    (pArgs : Option IMonoArray) (m : MonoMethod)
    (h : GetMonoMethodArgs pClass methodName pArgs = .ok (some m))
    (i : Nat) (t : MonoTypeEnum) (pItem : IMonoObject)
    (ht : m.params.get? i = some t) (hitem : GetItem pArgs i = .ok (some pItem)) :
    typeCompatible t pItem.anyType = true := by
  cases pArgs with
  | none => simp [GetItem] at hitem
  | some items =>
      have hi : items.get? i = some (some pItem) := by
        unfold GetItem at hitem
        simp only [] at hitem
        split at hitem
        · rename_i x hx
          injection hitem with hitem
          rw [hx, hitem]
        · cases hitem
      have hlen : 1 ≤ items.length := by
        have := List.get?_eq_some.mp hi
        obtain ⟨hlt, _⟩ := this
        omega
      rw [GetMonoMethodArgs_eq_find pClass methodName items hlen] at h
      injection h with h
      have hacc := List.find?_some h
      simp only [acceptsArgs, Bool.and_eq_true, List.all_eq_true] at hacc
      have hmem : (t, some pItem) ∈ List.zip m.params items := by
        apply List.getElem?_mem (n := i)
        rw [List.getElem?_zip_eq_some]
        simp only [List.get?_eq_getElem?] at ht hi
        exact ⟨ht, hi⟩
      exact hacc.2 _ hmem

theorem scanMethodsArgs_no_name (methodName : String) (pArgs : Option IMonoArray)
    (k : Except ArrayFault (Option MonoMethod)) :
    ∀ l : List MonoMethod, (∀ m ∈ l, m.name ≠ methodName) →
      scanMethodsArgs methodName pArgs l k = k := by
  intro l
  induction l with
  | nil => intro _; rfl
  | cons a l ih =>
      intro h
      have ha : (a.name == methodName) = false := by
        simpa using h a (List.mem_cons_self _ _)
      rw [scanMethodsArgs]
      simp only [ha, Bool.false_and, Bool.false_eq_true, if_false]
      exact ih (fun m hm => h m (List.mem_cons_of_mem _ hm))

theorem walkMethodsArgs_no_name (methodName : String) (pArgs : Option IMonoArray)
    (parent : MonoClassPtr) :
    ∀ (o : Bool) (ms : List MonoMethod) (ps : List MonoProperty) (fs : List MonoClassField)
      (pIterator : List MonoMethod),
      (∀ m ∈ pIterator ++ inheritedMembers MonoClassPtr.getMethods parent,
        m.name ≠ methodName) →
      walkMethodsArgs methodName pArgs (.cls o ms ps fs parent) pIterator = .ok none := by
  induction parent with
  | nullptr =>
      intro o ms ps fs pIterator h
      rw [walkMethodsArgs, scanMethodsArgs_no_name methodName pArgs _ pIterator
        (fun m hm => h m (List.mem_append_left _ hm))]
      simp [MonoClassPtr.isObject, walkMethodsArgs]
  | cls o2 ms2 ps2 fs2 parent2 ih =>
      intro o ms ps fs pIterator h
      rw [walkMethodsArgs, scanMethodsArgs_no_name methodName pArgs _ pIterator
        (fun m hm => h m (List.mem_append_left _ hm))]
      cases o2 with
      | true => simp [MonoClassPtr.isObject]
      | false =>
          simp only [MonoClassPtr.isObject, Bool.false_eq_true, if_false]
          apply ih
          intro m hm
          apply h m
          apply List.mem_append_right
          simpa [inheritedMembers] using hm

theorem GetMonoMethodArgs_no_name (pClass : MonoClassPtr) (methodName : String)
    (pArgs : Option IMonoArray)
    (h : ∀ m ∈ methodSearchOrder pClass, m.name ≠ methodName) :
    GetMonoMethodArgs pClass methodName pArgs = .ok none := by
  cases pClass with
  | nullptr => rfl
  | cls o ms ps fs parent =>
      exact walkMethodsArgs_no_name methodName pArgs parent o ms ps fs _ h

theorem typeCompatible_of_not_checked (t : MonoTypeEnum) (ht : t ∉ checkedTypes)
    (a : EMonoAnyType) : typeCompatible t a = true := by
  cases t <;> simp [checkedTypes] at ht <;> rfl

theorem mem_inheritedMembers {α : Type} (members : MonoClassPtr → List α) (a : α) :
    ∀ p : MonoClassPtr, a ∈ inheritedMembers members p →
      ∃ c ∈ baseChain p, c.isObject = false ∧ a ∈ members c := by
  intro p
  induction p with
  | nullptr => intro h; simp [inheritedMembers] at h
  | cls o ms ps fs parent ih =>
      intro h
      cases o with
      | true => simp [inheritedMembers] at h
      | false =>
          simp only [inheritedMembers, Bool.false_eq_true, if_false, List.mem_append] at h
          rcases h with h | h
          · exact ⟨_, List.mem_cons_self _ _, rfl, h⟩
          · obtain ⟨c, hc, hco, hca⟩ := ih h
            exact ⟨c, List.mem_cons_of_mem _ hc, hco, hca⟩

theorem mem_searchOrder {α : Type} (members : MonoClassPtr → List α)
    (hnull : members .nullptr = []) (a : α) (pClass : MonoClassPtr)
    (hobj : pClass.isObject = false) (h : a ∈ searchOrder members pClass) :
    ∃ c ∈ baseChain pClass, c.isObject = false ∧ a ∈ members c := by
  cases pClass with
  | nullptr => simp [searchOrder, hnull, MonoClassPtr.getParent, inheritedMembers] at h
  | cls o ms ps fs parent =>
      simp only [searchOrder, List.mem_append, MonoClassPtr.getParent] at h
      rcases h with h | h
      · exact ⟨_, List.mem_cons_self _ _, hobj, h⟩
      · obtain ⟨c, hc, hco, hca⟩ := mem_inheritedMembers members a parent h
        exact ⟨c, List.mem_cons_of_mem _ hc, hco, hca⟩

theorem searchOrder_without_ancestor {α : Type} (members : MonoClassPtr → List α)
    (pClass : MonoClassPtr)
    (h : pClass.getParent = .nullptr ∨ pClass.getParent.isObject = true) :
    searchOrder members pClass = members pClass := by
  have hin : inheritedMembers members pClass.getParent = [] := by
    rcases h with h | h
    · rw [h]; rfl
    · cases hp : pClass.getParent with
      | nullptr => rfl
      | cls o ms ps fs parent =>
          rw [hp] at h
          simp only [MonoClassPtr.isObject] at h
          simp [inheritedMembers, h]
  simp [searchOrder, hin]

/-! ## Lemmas about the loops of `MonoFlowNode::ProcessEvent` -/

theorem collectIds_eq (portCount : Int) (pInputPorts : Nat → InputPort)
    (hP : portCount.toNat ≤ 255) :
    ∀ (k i : Nat) (listIds : List Nat) (fuel : Nat),
      i + k = portCount.toNat → k + 1 ≤ fuel →
      MonoFlowNode.collectIds portCount pInputPorts fuel i listIds =
        some (listIds ++ (List.range' i k).filter (fun j => (pInputPorts j).userFlag)) := by
  intro k
  induction k with
  | zero =>
      intro i listIds fuel hik hfuel
      obtain ⟨f, rfl⟩ : ∃ f, fuel = f + 1 := ⟨fuel - 1, by omega⟩
      have hcond : ¬ ((i : Int) < portCount) := by omega
      simp [MonoFlowNode.collectIds, hcond]
  | succ k ih =>
      intro i listIds fuel hik hfuel
      obtain ⟨f, rfl⟩ : ∃ f, fuel = f + 1 := ⟨fuel - 1, by omega⟩
      have hcond : (i : Int) < portCount := by omega
      have hwrap : (i + 1) % 256 = i + 1 := Nat.mod_eq_of_lt (by omega)
      rw [MonoFlowNode.collectIds]
      simp only [hcond, if_true, hwrap]
      rw [ih (i + 1) _ f (by omega) (by omega)]
      by_cases hflag : (pInputPorts i).userFlag = true
      · simp [List.range'_succ, hflag]
      · simp [List.range'_succ, hflag]

theorem fillArrays_eq (listIds : List Nat) (pInputPorts : Nat → InputPort)
    (hL : listIds.length ≤ 255) :
    ∀ (k i : Nat) (ids : List Nat) (values : List TFlowInputData) (fuel : Nat),
      i + k = listIds.length → k + 1 ≤ fuel →
      MonoFlowNode.fillArrays listIds pInputPorts fuel i ids values =
        some (ids ++ listIds.drop i,
          values ++ (listIds.drop i).map (fun id => (pInputPorts id).data)) := by
  intro k
  induction k with
  | zero =>
      intro i ids values fuel hik hfuel
      obtain ⟨f, rfl⟩ : ∃ f, fuel = f + 1 := ⟨fuel - 1, by omega⟩
      have hcond : ¬ (i < listIds.length) := by omega
      have hdrop : listIds.drop i = [] := List.drop_eq_nil_of_le (by omega)
      simp [MonoFlowNode.fillArrays, hcond, hdrop]
  | succ k ih =>
      intro i ids values fuel hik hfuel
      obtain ⟨f, rfl⟩ : ∃ f, fuel = f + 1 := ⟨fuel - 1, by omega⟩
      have hcond : i < listIds.length := by omega
      have hwrap : (i + 1) % 256 = i + 1 := Nat.mod_eq_of_lt (by omega)
      rw [MonoFlowNode.fillArrays]
      simp only [hcond, if_true, hwrap]
      rw [ih (i + 1) _ _ f (by omega) (by omega), List.drop_eq_getElem_cons hcond]
      simp [List.getD_eq_getElem?_getD, List.getElem?_eq_getElem hcond, -List.map_drop]
      rw [List.drop_eq_getElem_cons hcond, List.map_cons]

theorem collectIds_unflagged_runs_on (fuel : Nat) :
    ∀ i : Nat, i < 256 →
      MonoFlowNode.collectIds 256 (fun _ => ⟨false, .empty⟩) fuel i [] = none := by
  induction fuel with
  | zero => intro i _; rfl
  | succ f ih =>
      intro i hi
      have hcond : (i : Int) < 256 := by omega
      rw [MonoFlowNode.collectIds]
      simp only [hcond, if_true, Bool.false_eq_true, if_false]
      exact ih _ (Nat.mod_lt _ (by decide))

/-! ## Lemmas about the loop with fuel -/

theorem inheritedMembers_of_isObject {α : Type} (members : MonoClassPtr → List α)
    (p : MonoClassPtr) (h : p.isObject = true) : inheritedMembers members p = [] := by
  cases p with
  | nullptr => rfl
  | cls o ms ps fs parent =>
      simp only [MonoClassPtr.isObject] at h
      simp [inheritedMembers, h]

theorem memberLoop_cls {α ε : Type} (members : MonoClassPtr → List α)
    (check : α → Except ε Bool) (parent : MonoClassPtr) :
    ∀ (o : Bool) (ms : List MonoMethod) (ps : List MonoProperty) (fs : List MonoClassField)
      (pIterator : List α) (fuel : Nat),
      pIterator.length + (inheritedMembers members parent).length +
          (baseChain (.cls o ms ps fs parent)).length + 1 ≤ fuel →
      memberLoop members check fuel (.cls o ms ps fs parent) pIterator =
        some (firstVerdict check (pIterator ++ inheritedMembers members parent),
          visitedUntilVerdict check (pIterator ++ inheritedMembers members parent)) := by
  induction parent with
  | nullptr =>
      intro o ms ps fs pIterator
      induction pIterator with
      | nil =>
          intro fuel hfuel
          simp only [baseChain, inheritedMembers, List.length_nil, List.length_cons] at hfuel
          obtain ⟨f, rfl⟩ : ∃ f, fuel = f + 2 := ⟨fuel - 2, by omega⟩
          simp [memberLoop, MonoClassPtr.isObject, inheritedMembers, firstVerdict,
            visitedUntilVerdict]
      | cons a rest ih =>
          intro fuel hfuel
          simp only [List.length_cons] at hfuel
          obtain ⟨f, rfl⟩ : ∃ f, fuel = f + 1 := ⟨fuel - 1, by omega⟩
          have h := ih f (by omega)
          rw [memberLoop]
          simp only [List.cons_append, firstVerdict, visitedUntilVerdict]
          cases hc : check a with
          | error e => rfl
          | ok b =>
              cases b with
              | true => rfl
              | false =>
                  simp only [h]
                  rfl
  | cls o2 ms2 ps2 fs2 parent2 ihp =>
      intro o ms ps fs pIterator
      induction pIterator with
      | nil =>
          intro fuel hfuel
          obtain ⟨f, rfl⟩ : ∃ f, fuel = f + 1 := ⟨fuel - 1, by omega⟩
          cases o2 with
          | true =>
              simp [memberLoop, MonoClassPtr.isObject, inheritedMembers, firstVerdict,
                visitedUntilVerdict]
          | false =>
              have hin : inheritedMembers members (.cls false ms2 ps2 fs2 parent2) =
                  members (.cls false ms2 ps2 fs2 parent2) ++
                    inheritedMembers members parent2 := by
                simp [inheritedMembers]
              rw [hin] at hfuel ⊢
              simp only [baseChain, List.length_nil, List.length_cons, List.length_append]
                at hfuel
              have h := ihp false ms2 ps2 fs2 (members (.cls false ms2 ps2 fs2 parent2)) f
                (by simp only [baseChain, List.length_cons]; omega)
              rw [memberLoop]
              simp only [MonoClassPtr.isObject, Bool.false_eq_true, if_false, List.nil_append]
              exact h
      | cons a rest ih =>
          intro fuel hfuel
          simp only [List.length_cons] at hfuel
          obtain ⟨f, rfl⟩ : ∃ f, fuel = f + 1 := ⟨fuel - 1, by omega⟩
          have h := ih f (by omega)
          rw [memberLoop]
          simp only [List.cons_append, firstVerdict, visitedUntilVerdict]
          cases hc : check a with
          | error e => rfl
          | ok b =>
              cases b with
              | true => rfl
              | false =>
                  simp only [h]
                  rfl

theorem memberLoop_lookupFuel {α ε : Type} (members : MonoClassPtr → List α)
    (check : α → Except ε Bool) (hnull : members .nullptr = []) (pClass : MonoClassPtr) :
    memberLoop members check (lookupFuel members pClass) pClass (members pClass) =
      some (firstVerdict check (searchOrder members pClass),
        visitedUntilVerdict check (searchOrder members pClass)) := by
  cases pClass with
  | nullptr =>
      simp [lookupFuel, searchOrder, hnull, MonoClassPtr.getParent, inheritedMembers, baseChain,
        memberLoop, firstVerdict, visitedUntilVerdict]
  | cls o ms ps fs parent =>
      apply memberLoop_cls
      simp [lookupFuel, searchOrder, MonoClassPtr.getParent]

theorem firstVerdict_pure {α ε : Type} (test : α → Bool) :
    ∀ l : List α, firstVerdict (ε := ε) (fun a => .ok (test a)) l = .ok (l.find? test) := by
  intro l
  induction l with
  | nil => rfl
  | cons a l ih =>
      cases h : test a <;> simp [firstVerdict, h, ih]

theorem visitedUntilVerdict_prefix {α ε : Type} (check : α → Except ε Bool) :
    ∀ l : List α, visitedUntilVerdict check l <+: l := by
  intro l
  induction l with
  | nil => exact List.prefix_refl _
  | cons a l ih =>
      simp only [visitedUntilVerdict]
      split
      · exact (List.prefix_cons_inj a).mpr ih
      · exact ⟨l, rfl⟩

theorem scanMethodsArgs_firstVerdict (methodName : String) (pArgs : Option IMonoArray)
    (l2 : List MonoMethod) :
    ∀ l : List MonoMethod,
      scanMethodsArgs methodName pArgs l (firstVerdict (argsVerdict methodName pArgs) l2) =
        firstVerdict (argsVerdict methodName pArgs) (l ++ l2) := by
  intro l
  induction l with
  | nil => rfl
  | cons a l ih =>
      rw [scanMethodsArgs]
      simp only [List.cons_append, firstVerdict, argsVerdict]
      split
      · rfl
      · split
        · cases hcp : checkParams pArgs (suppliedArgsCount pArgs) 0 a.params with
          | error e => rfl
          | ok b =>
              cases b with
              | true => rfl
              | false => simpa using ih
        · simpa using ih

theorem walkMethodsArgs_firstVerdict (methodName : String) (pArgs : Option IMonoArray)
    (parent : MonoClassPtr) :
    ∀ (o : Bool) (ms : List MonoMethod) (ps : List MonoProperty) (fs : List MonoClassField)
      (pIterator : List MonoMethod),
      walkMethodsArgs methodName pArgs (.cls o ms ps fs parent) pIterator =
        firstVerdict (argsVerdict methodName pArgs)
          (pIterator ++ inheritedMembers MonoClassPtr.getMethods parent) := by
  induction parent with
  | nullptr =>
      intro o ms ps fs pIterator
      rw [walkMethodsArgs, ← scanMethodsArgs_firstVerdict]
      simp [MonoClassPtr.isObject, walkMethodsArgs, inheritedMembers, firstVerdict]
  | cls o2 ms2 ps2 fs2 parent2 ih =>
      intro o ms ps fs pIterator
      rw [walkMethodsArgs, ← scanMethodsArgs_firstVerdict]
      cases o2 with
      | true => simp [MonoClassPtr.isObject, inheritedMembers, firstVerdict]
      | false =>
          simp only [MonoClassPtr.isObject, Bool.false_eq_true, if_false]
          rw [ih false ms2 ps2 fs2]
          simp [inheritedMembers]

theorem GetMonoMethodArgs_eq_firstVerdict (pClass : MonoClassPtr) (methodName : String)
    (pArgs : Option IMonoArray) :
    GetMonoMethodArgs pClass methodName pArgs =
      firstVerdict (argsVerdict methodName pArgs) (methodSearchOrder pClass) := by
  cases pClass with
  | nullptr => rfl
  | cls o ms ps fs parent =>
      unfold GetMonoMethodArgs
      rw [walkMethodsArgs_firstVerdict]
      rfl

/-! ## Lemmas about object handles -/

theorem find_after_collect (p : ManagedObject → Bool) (f : ManagedObject → ManagedObject)
    (target : Nat) (hf : ∀ o, (f o).id = o.id) (obj : ManagedObject) (hp : p obj = true) :
    ∀ l : List ManagedObject, l.find? (fun o => o.id == target) = some obj →
      ((l.filter p).map f).find? (fun o => o.id == target) = some (f obj) := by
  intro l
  induction l with
  | nil => intro h; simp at h
  | cons a l ih =>
      intro h
      by_cases ha : (a.id == target) = true
      · have hao : a = obj := by simpa [List.find?, ha] using h
        subst hao
        simp [List.filter, hp, List.find?, hf, ha]
      · have hrest : l.find? (fun o => o.id == target) = some obj := by
          simpa [List.find?, ha] using h
        by_cases hpa : p a = true
        · simp only [List.filter, hpa, List.map_cons, List.find?, hf]
          simp only [ha]
          exact ih hrest
        · simp only [List.filter, hpa]
          exact ih hrest

/-! ## Claims -/

/-- C1: `GetMonoMethod (name, n)` returns the first method, in the order
"own methods in declaration order, then the methods of each ancestor below
the object class in declaration order", whose name is the query name and
whose declared parameter count is exactly `n`: a method `m` is returned
exactly when the walk splits as `pre ++ m :: post` with `m` matching and no
method of `pre` matching; null is returned exactly when no method of the
walk matches. -/
theorem GetMonoMethod_first_exact_match (pClass : MonoClassPtr) (methodName : String)
    (numParams : Int) :
    (∀ m, GetMonoMethod pClass methodName numParams = some m ↔
      ((m.name = methodName ∧ (m.paramCount : Int) = numParams) ∧
        ∃ pre post, methodSearchOrder pClass = pre ++ m :: post ∧
          ∀ x ∈ pre, ¬ (x.name = methodName ∧ (x.paramCount : Int) = numParams))) ∧
    (GetMonoMethod pClass methodName numParams = none ↔
      ∀ x ∈ methodSearchOrder pClass,
        ¬ (x.name = methodName ∧ (x.paramCount : Int) = numParams)) := by
  rw [GetMonoMethod_eq_find]
  refine ⟨fun m => ?_, ?_⟩
  · rw [List.find?_eq_some, matchesCount_iff]
    constructor
    · rintro ⟨hm, pre, post, hsplit, hpre⟩
      refine ⟨hm, pre, post, hsplit, fun x hx hmatch => ?_⟩
      have := hpre x hx
      rw [(matchesCount_iff methodName numParams x).mpr hmatch] at this
      simp at this
    · rintro ⟨hm, pre, post, hsplit, hpre⟩
      refine ⟨hm, pre, post, hsplit, fun x hx => ?_⟩
      have h1 : ¬ (matchesCount methodName numParams x = true) :=
        fun h => hpre x hx ((matchesCount_iff methodName numParams x).mp h)
      simpa using h1
  · rw [List.find?_eq_none]
    constructor
    · intro h x hx hmatch
      exact h x hx ((matchesCount_iff methodName numParams x).mpr hmatch)
    · intro h x hx hmatch
      exact h x hx ((matchesCount_iff methodName numParams x).mp hmatch)

/-- Counterexample to C2: with `h (float)` declared before `h (string)`, one
String argument resolves to `h (float)`, whose parameter is not of the
category of the argument, and not to `h (string)`, the first method whose
first declared parameter is type-compatible with the argument. -/
theorem GetMonoMethodArgs_float_overload_taken_for_string :
    ¬ (∀ (pClass : MonoClassPtr) (methodName : String) (args : List IMonoObject),
        1 ≤ args.length →
        GetMonoMethodArgs pClass methodName (some (args.map some)) =
          .ok ((methodSearchOrder pClass).find? (fun m =>
            m.name == methodName && decide (args.length ≤ m.paramCount) &&
              argsStrictlyCompatible (m.params.take args.length) args))) := by
  intro h
  exact absurd (h floatFirstClass "h" [stringArg] (by decide)) (by decide)

/-- C2 as amended: for an argument array of `k >= 1` non-null items,
`GetMonoMethod (name, args)` returns the first method of the walk (own
methods in declaration order, then those of the ancestors below the object
class) whose name is the query name, whose declared parameter count is at
least `k` and whose first `k` declared parameters pass the category test on
six declared types against the `k` arguments: a declared Boolean, I4, U4,
I2, U2 or String parameter requires the matching category, a declared
parameter of any other type accepts every argument. No access to the array
is invalid. The result is a function of the class, the name and the
arguments only, so a repeated call returns the same method. -/
theorem GetMonoMethodArgs_first_compatible_overload (pClass : MonoClassPtr)
    (methodName : String) (args : List IMonoObject) (hk : 1 ≤ args.length) :
    GetMonoMethodArgs pClass methodName (some (args.map some)) =
      .ok ((methodSearchOrder pClass).find? (fun m =>
        m.name == methodName && decide (args.length ≤ m.paramCount) &&
          argsCompatible (m.params.take args.length) args)) := by
  rw [GetMonoMethodArgs_eq_find pClass methodName (args.map some) (by simpa using hk)]
  have h : acceptsArgs methodName (args.map some) = (fun m =>
      m.name == methodName && decide (args.length ≤ m.paramCount) &&
        argsCompatible (m.params.take args.length) args) :=
    funext (acceptsArgs_map_some methodName args)
  rw [h]

/-- Witness of C2 as amended: with `f (int)` declared before
`f (int, string)`, one Integer argument resolves to `f (int)`. -/
theorem GetMonoMethodArgs_first_compatible_overload_witness :
    1 ≤ [intArg].length ∧
      GetMonoMethodArgs overloadClass "f" (some ([intArg].map some)) = .ok (some fInt) :=
  ⟨by decide,
    (GetMonoMethodArgs_first_compatible_overload overloadClass "f" [intArg] (by decide)).trans
      (by decide)⟩

/-- C3: a method returned by `GetMonoMethod (name, args)` declares at least
as many parameters as arguments are supplied, and at no supplied position
with a non-null argument is its declared parameter Boolean, I4, U4, I2, U2 or
String while the runtime category of the argument is not Boolean, Integer,
UnsignedInteger or EntityId, Short, UnsignedShort or String respectively.
A candidate with such a mismatch at a supplied position is abandoned and the
search goes on with the next method as if the candidate were not declared. -/
theorem GetMonoMethodArgs_rejects_mismatch :
    (∀ (pClass : MonoClassPtr) (methodName : String) (pArgs : Option IMonoArray)
        (m : MonoMethod),
        GetMonoMethodArgs pClass methodName pArgs = .ok (some m) →
        suppliedArgsCount pArgs ≤ m.paramCount ∧
        ∀ (i : Nat) (t : MonoTypeEnum) (pItem : IMonoObject),
          i < suppliedArgsCount pArgs → m.params.get? i = some t →
          GetItem pArgs i = .ok (some pItem) →
          (t = .MONO_TYPE_BOOLEAN → pItem.anyType = .eMonoAnyType_Boolean) ∧
          (t = .MONO_TYPE_I4 → pItem.anyType = .eMonoAnyType_Integer) ∧
          (t = .MONO_TYPE_U4 → pItem.anyType = .eMonoAnyType_UnsignedInteger ∨
            pItem.anyType = .eMonoAnyType_EntityId) ∧
          (t = .MONO_TYPE_I2 → pItem.anyType = .eMonoAnyType_Short) ∧
          (t = .MONO_TYPE_U2 → pItem.anyType = .eMonoAnyType_UnsignedShort) ∧
          (t = .MONO_TYPE_STRING → pItem.anyType = .eMonoAnyType_String)) ∧
    (∀ (o : Bool) (m : MonoMethod) (ms : List MonoMethod) (ps : List MonoProperty)
        (fs : List MonoClassField) (parent : MonoClassPtr) (methodName : String)
        (items : IMonoArray) (i : Nat) (t : MonoTypeEnum) (pItem : IMonoObject),
        items.get? i = some (some pItem) → m.params.get? i = some t →
        typeCompatible t pItem.anyType = false →
        GetMonoMethodArgs (.cls o (m :: ms) ps fs parent) methodName (some items) =
          GetMonoMethodArgs (.cls o ms ps fs parent) methodName (some items)) := by
  constructor
  · intro pClass methodName pArgs m h
    refine ⟨(GetMonoMethodArgs_ok_some pClass methodName pArgs m h).2.2, ?_⟩
    intro i t pItem _ ht hitem
    have hc := GetMonoMethodArgs_compatible pClass methodName pArgs m h i t pItem ht hitem
    refine ⟨?_, ?_, ?_, ?_, ?_, ?_⟩ <;> intro heq <;> subst heq <;>
      simpa [typeCompatible] using hc
  · intro o m ms ps fs parent methodName items i t pItem hitem ht hmis
    have hlen : 1 ≤ items.length := by
      obtain ⟨hlt, _⟩ := List.get?_eq_some.mp hitem
      omega
    rw [GetMonoMethodArgs_eq_find _ methodName items hlen,
      GetMonoMethodArgs_eq_find _ methodName items hlen]
    have hacc : acceptsArgs methodName items m = false := by
      by_contra hne
      have hacc : acceptsArgs methodName items m = true := by simpa using hne
      simp only [acceptsArgs, Bool.and_eq_true, List.all_eq_true] at hacc
      have hmem : (t, some pItem) ∈ List.zip m.params items := by
        apply List.getElem?_mem (n := i)
        rw [List.getElem?_zip_eq_some]
        simp only [List.get?_eq_getElem?] at ht hitem
        exact ⟨ht, hitem⟩
      have := hacc.2 _ hmem
      simp only [itemCompatible] at this
      rw [hmis] at this
      exact Bool.false_ne_true this
    simp [methodSearchOrder, searchOrder, MonoClassPtr.getMethods, MonoClassPtr.getParent, hacc]

/-- Witness of C3: `f (int)` is returned for an Integer argument, which is of
the category of its parameter; with `g (string)` declared before `g (int)`,
an Integer argument abandons `g (string)` and resolves to `g (int)`. -/
theorem GetMonoMethodArgs_rejects_mismatch_witness :
    intArg.anyType = .eMonoAnyType_Integer ∧
      GetMonoMethodArgs rejectClass "g" (some [some intArg]) = .ok (some gInt) :=
  ⟨((GetMonoMethodArgs_rejects_mismatch.1 overloadClass "f" (some [some intArg]) fInt
      (by decide)).2 0 .MONO_TYPE_I4 intArg (by decide) rfl rfl).2.1 rfl,
    (GetMonoMethodArgs_rejects_mismatch.2 false gString [gInt] [] [] exampleObjectClass "g"
      [some intArg] 0 .MONO_TYPE_STRING intArg rfl rfl rfl).trans (by decide)⟩

/-- Counterexample to C4: the method `h (float)` is returned for an argument
of runtime category String, so not every returned method has, at every
supplied position, a declared parameter whose primitive category the
argument matches. -/
theorem GetMonoMethodArgs_float_param_unchecked :
    ¬ (∀ (pClass : MonoClassPtr) (methodName : String) (pArgs : Option IMonoArray)
        (m : MonoMethod),
        GetMonoMethodArgs pClass methodName pArgs = .ok (some m) →
        ∀ (i : Nat) (t : MonoTypeEnum) (pItem : IMonoObject),
          i < suppliedArgsCount pArgs → m.params.get? i = some t →
          GetItem pArgs i = .ok (some pItem) →
          strictCategoryMatch t pItem.anyType = true) := by
  intro h
  have := h floatClass "h" (some [some stringArg]) hFloat (by decide) 0 .MONO_TYPE_R4 stringArg
    (by decide) rfl rfl
  exact absurd this (by decide)

/-- C4 as amended: for every method returned by `GetMonoMethod (name, args)`
and every supplied position with a non-null argument, the runtime category of
the argument matches the declared parameter when that is Boolean, I4, U4, I2,
U2 or String (`typeCompatible`); a declared parameter of any other type, a
floating-point number for example, is compatible with an argument of every
category, and a method whose only parameter is of such a type is returned
for any single non-null argument when it is the first declared method of
that name. -/
theorem GetMonoMethodArgs_checks_six_categories :
    (∀ (pClass : MonoClassPtr) (methodName : String) (pArgs : Option IMonoArray)
        (m : MonoMethod),
        GetMonoMethodArgs pClass methodName pArgs = .ok (some m) →
        ∀ (i : Nat) (t : MonoTypeEnum) (pItem : IMonoObject),
          i < suppliedArgsCount pArgs → m.params.get? i = some t →
          GetItem pArgs i = .ok (some pItem) →
          typeCompatible t pItem.anyType = true) ∧
    (∀ (t : MonoTypeEnum), t ∉ checkedTypes →
        (∀ a : EMonoAnyType, typeCompatible t a = true) ∧
        ∀ (o : Bool) (methodName : String) (token : Nat) (ms : List MonoMethod)
          (ps : List MonoProperty) (fs : List MonoClassField) (parent : MonoClassPtr)
          (pItem : IMonoObject),
          GetMonoMethodArgs (.cls o (⟨methodName, [t], token⟩ :: ms) ps fs parent) methodName
            (some [some pItem]) = .ok (some ⟨methodName, [t], token⟩)) := by
  constructor
  · intro pClass methodName pArgs m h i t pItem _ ht hitem
    exact GetMonoMethodArgs_compatible pClass methodName pArgs m h i t pItem ht hitem
  · intro t ht
    refine ⟨typeCompatible_of_not_checked t ht, ?_⟩
    intro o methodName token ms ps fs parent pItem
    rw [GetMonoMethodArgs_eq_find _ methodName [some pItem] (by simp)]
    simp [methodSearchOrder, searchOrder, MonoClassPtr.getMethods, acceptsArgs,
      MonoMethod.paramCount, itemCompatible, typeCompatible_of_not_checked t ht]

/-- Witness of C4 as amended: `f (int)` is returned for an Integer argument,
which is compatible with its parameter, and `h (float)` is returned for a
String argument. -/
theorem GetMonoMethodArgs_checks_six_categories_witness :
    typeCompatible .MONO_TYPE_I4 intArg.anyType = true ∧
      GetMonoMethodArgs floatClass "h" (some [some stringArg]) = .ok (some hFloat) :=
  ⟨GetMonoMethodArgs_checks_six_categories.1 overloadClass "f" (some [some intArg]) fInt
      (by decide) 0 .MONO_TYPE_I4 intArg (by decide) rfl rfl,
    (GetMonoMethodArgs_checks_six_categories.2 .MONO_TYPE_R4 (by decide)).2 false "h" 5 []
      [] [] exampleObjectClass stringArg⟩

/-- C5: when neither the class nor any ancestor searched declares a method
named `N`, `GetMonoMethod (N, K)` returns null for every count `K`,
`GetMonoMethod (N, args)` returns null for every argument array (a null
array and an empty array included) without an invalid access, and
`GetMethodThunk (N, K)` returns null. -/
theorem lookups_null_without_declared_name (pClass : MonoClassPtr) (N : String)
    (h : ∀ m ∈ methodSearchOrder pClass, m.name ≠ N) :
    (∀ K : Int, GetMonoMethod pClass N K = none) ∧
    (∀ pArgs : Option IMonoArray, GetMonoMethodArgs pClass N pArgs = .ok none) ∧
    (∀ (Thunk : Type) (thunkOf : MonoMethod → Thunk) (K : Int),
      GetMethodThunk thunkOf pClass N K = none) := by
  have h1 : ∀ K : Int, GetMonoMethod pClass N K = none := by
    intro K
    rw [GetMonoMethod_eq_find, List.find?_eq_none]
    intro x hx hmatch
    exact h x hx ((matchesCount_iff N K x).mp hmatch).1
  refine ⟨h1, fun pArgs => GetMonoMethodArgs_no_name pClass N pArgs h, ?_⟩
  intro Thunk thunkOf K
  simp [GetMethodThunk, h1 K]

/-- Witness of C5: `overloadClass` and its ancestors declare no method named
`Missing`. -/
theorem lookups_null_without_declared_name_witness :
    (∀ m ∈ methodSearchOrder overloadClass, m.name ≠ "Missing") ∧
      GetMonoMethod overloadClass "Missing" 1 = none ∧
      GetMonoMethodArgs overloadClass "Missing" none = .ok none ∧
      GetMethodThunk MonoMethod.token overloadClass "Missing" 1 = none :=
  have h := lookups_null_without_declared_name overloadClass "Missing" (by decide)
  ⟨by decide, h.1 1, h.2.1 none, h.2.2 Nat MonoMethod.token 1⟩

/-- C6: on a chain `T -> B1 -> B2 -> root` in which `T` and `B1` declare no
member named `N`, the lookups on `T` find what `B2` declares:
`GetMonoMethod (N, n)` returns the first method of `B2` named `N` with `n`
parameters, `GetMonoProperty (N)` the first property of `B2` named `N` and
`GetMonoField (N)` the first field of `B2` named `N`. -/
theorem lookups_find_member_of_second_ancestor
    (oT : Bool) (msT msB1 msB2 : List MonoMethod) (psT psB1 psB2 : List MonoProperty)
    (fsT fsB1 fsB2 : List MonoClassField) (root : MonoClassPtr) (N : String) (n : Int)
    (hroot : root = .nullptr ∨ root.isObject = true)
    (hms : ∀ m ∈ msT ++ msB1, m.name ≠ N)
    (hps : ∀ p ∈ psT ++ psB1, p.name ≠ N)
    (hfs : ∀ f ∈ fsT ++ fsB1, f.name ≠ N) :
    GetMonoMethod
        (.cls oT msT psT fsT (.cls false msB1 psB1 fsB1 (.cls false msB2 psB2 fsB2 root))) N n =
      msB2.find? (fun m => m.name == N && ((m.paramCount : Int) == n)) ∧
    GetMonoProperty
        (.cls oT msT psT fsT (.cls false msB1 psB1 fsB1 (.cls false msB2 psB2 fsB2 root))) N =
      psB2.find? (fun p => p.name == N) ∧
    GetMonoField
        (.cls oT msT psT fsT (.cls false msB1 psB1 fsB1 (.cls false msB2 psB2 fsB2 root))) N =
      fsB2.find? (fun f => f.name == N) := by
  have hin : ∀ {α : Type} (members : MonoClassPtr → List α),
      inheritedMembers members root = [] := by
    intro α members
    rcases hroot with h | h
    · rw [h]; rfl
    · cases root with
      | nullptr => rfl
      | cls o ms ps fs parent =>
          simp only [MonoClassPtr.isObject] at h
          simp [inheritedMembers, h]
  refine ⟨?_, ?_, ?_⟩
  · rw [GetMonoMethod_eq_find]
    have h1 : List.find? (matchesCount N n) msT = none := by
      rw [List.find?_eq_none]
      intro x hx hmatch
      exact hms x (List.mem_append_left _ hx) ((matchesCount_iff N n x).mp hmatch).1
    have h2 : List.find? (matchesCount N n) msB1 = none := by
      rw [List.find?_eq_none]
      intro x hx hmatch
      exact hms x (List.mem_append_right _ hx) ((matchesCount_iff N n x).mp hmatch).1
    simp only [methodSearchOrder, searchOrder, MonoClassPtr.getMethods, MonoClassPtr.getParent,
      inheritedMembers, Bool.false_eq_true, if_false, hin, List.append_nil, List.find?_append,
      h1, h2, Option.none_or]
    rfl
  · rw [GetMonoProperty_eq_find]
    have h1 : List.find? (fun p : MonoProperty => p.name == N) psT = none := by
      rw [List.find?_eq_none]
      intro x hx hmatch
      exact hps x (List.mem_append_left _ hx) (by simpa using hmatch)
    have h2 : List.find? (fun p : MonoProperty => p.name == N) psB1 = none := by
      rw [List.find?_eq_none]
      intro x hx hmatch
      exact hps x (List.mem_append_right _ hx) (by simpa using hmatch)
    simp only [propertySearchOrder, searchOrder, MonoClassPtr.getProperties,
      MonoClassPtr.getParent, inheritedMembers, Bool.false_eq_true, if_false, hin,
      List.append_nil, List.find?_append, h1, h2, Option.none_or]
  · rw [GetMonoField_eq_find]
    have h1 : List.find? (fun f : MonoClassField => f.name == N) fsT = none := by
      rw [List.find?_eq_none]
      intro x hx hmatch
      exact hfs x (List.mem_append_left _ hx) (by simpa using hmatch)
    have h2 : List.find? (fun f : MonoClassField => f.name == N) fsB1 = none := by
      rw [List.find?_eq_none]
      intro x hx hmatch
      exact hfs x (List.mem_append_right _ hx) (by simpa using hmatch)
    simp only [fieldSearchOrder, searchOrder, MonoClassPtr.getFields, MonoClassPtr.getParent,
      inheritedMembers, Bool.false_eq_true, if_false, hin, List.append_nil,
      List.find?_append, h1, h2, Option.none_or]

/-- Witness of C6: on the chain `chainT -> chainB1 -> chainB2 -> object` the
members `Update`, `Health` and `m_id` of `chainB2` are found from `chainT`
(here with the three names looked up one after the other). -/
theorem lookups_find_member_of_second_ancestor_witness :
    GetMonoMethod chainT "Update" 0 = some ⟨"Update", [], 10⟩ ∧
      GetMonoProperty chainT "Health" = some ⟨"Health", 11⟩ ∧
      GetMonoField chainT "m_id" = some ⟨"m_id", 12⟩ :=
  ⟨(lookups_find_member_of_second_ancestor false [⟨"Fire", [.MONO_TYPE_I4], 30⟩]
      [⟨"Reset", [], 20⟩] [⟨"Update", [], 10⟩] [⟨"Ammo", 31⟩] [⟨"Armor", 21⟩] [⟨"Health", 11⟩]
      [⟨"m_ammo", 32⟩] [⟨"m_flags", 22⟩] [⟨"m_id", 12⟩] exampleObjectClass "Update" 0
      (Or.inr rfl) (by decide) (by decide) (by decide)).1.trans (by decide),
    (lookups_find_member_of_second_ancestor false [⟨"Fire", [.MONO_TYPE_I4], 30⟩]
      [⟨"Reset", [], 20⟩] [⟨"Update", [], 10⟩] [⟨"Ammo", 31⟩] [⟨"Armor", 21⟩] [⟨"Health", 11⟩]
      [⟨"m_ammo", 32⟩] [⟨"m_flags", 22⟩] [⟨"m_id", 12⟩] exampleObjectClass "Health" 0
      (Or.inr rfl) (by decide) (by decide) (by decide)).2.1.trans (by decide),
    (lookups_find_member_of_second_ancestor false [⟨"Fire", [.MONO_TYPE_I4], 30⟩]
      [⟨"Reset", [], 20⟩] [⟨"Update", [], 10⟩] [⟨"Ammo", 31⟩] [⟨"Armor", 21⟩] [⟨"Health", 11⟩]
      [⟨"m_ammo", 32⟩] [⟨"m_flags", 22⟩] [⟨"m_id", 12⟩] exampleObjectClass "m_id" 0
      (Or.inr rfl) (by decide) (by decide) (by decide)).2.2.trans (by decide)⟩

/-- Counterexample to C7: when the queried class is the object class itself,
`GetMonoMethod` returns a method that the object class declares. -/
theorem GetMonoMethod_on_object_class_returns_its_method :
    ¬ (∀ (pClass : MonoClassPtr) (methodName : String) (numParams : Int) (m : MonoMethod),
        GetMonoMethod pClass methodName numParams = some m →
        ∀ c ∈ baseChain pClass, c.isObject = true → m ∉ c.getMethods) := by
  intro h
  exact h exampleObjectClass "ToString" 0 ⟨"ToString", [], 100⟩ (by decide) exampleObjectClass
    (by simp [baseChain, exampleObjectClass]) rfl (by simp [MonoClassPtr.getMethods, exampleObjectClass])

/-- C7 as amended: for every queried class other than the object class
itself, each member returned by `GetMonoMethod` (either overload),
`GetMonoProperty` or `GetMonoField` is taken from the member list of a class
of the base chain that is not the object class: the members of the object
class are not matched against the query. -/
theorem lookups_skip_object_class (pClass : MonoClassPtr) (hobj : pClass.isObject = false) :
    (∀ (methodName : String) (numParams : Int) (m : MonoMethod),
      GetMonoMethod pClass methodName numParams = some m →
      ∃ c ∈ baseChain pClass, c.isObject = false ∧ m ∈ c.getMethods) ∧
    (∀ (methodName : String) (pArgs : Option IMonoArray) (m : MonoMethod),
      GetMonoMethodArgs pClass methodName pArgs = .ok (some m) →
      ∃ c ∈ baseChain pClass, c.isObject = false ∧ m ∈ c.getMethods) ∧
    (∀ (name : String) (p : MonoProperty),
      GetMonoProperty pClass name = some p →
      ∃ c ∈ baseChain pClass, c.isObject = false ∧ p ∈ c.getProperties) ∧
    (∀ (name : String) (f : MonoClassField),
      GetMonoField pClass name = some f →
      ∃ c ∈ baseChain pClass, c.isObject = false ∧ f ∈ c.getFields) := by
  refine ⟨?_, ?_, ?_, ?_⟩
  · intro methodName numParams m h
    rw [GetMonoMethod_eq_find] at h
    exact mem_searchOrder MonoClassPtr.getMethods rfl m pClass hobj
      (List.mem_of_find?_eq_some h)
  · intro methodName pArgs m h
    exact mem_searchOrder MonoClassPtr.getMethods rfl m pClass hobj
      (GetMonoMethodArgs_ok_some pClass methodName pArgs m h).1
  · intro name p h
    rw [GetMonoProperty_eq_find] at h
    exact mem_searchOrder MonoClassPtr.getProperties rfl p pClass hobj
      (List.mem_of_find?_eq_some h)
  · intro name f h
    rw [GetMonoField_eq_find] at h
    exact mem_searchOrder MonoClassPtr.getFields rfl f pClass hobj
      (List.mem_of_find?_eq_some h)

/-- Witness of C7 as amended: `overloadClass`, a child of the object class,
is not the object class, and `ToString`, which only the object class
declares, is not found from it. -/
theorem lookups_skip_object_class_witness :
    overloadClass.isObject = false ∧
      (∀ m : MonoMethod, GetMonoMethod overloadClass "f" 1 = some m →
        ∃ c ∈ baseChain overloadClass, c.isObject = false ∧ m ∈ c.getMethods) ∧
      GetMonoMethod overloadClass "ToString" 0 = none :=
  ⟨rfl, (lookups_skip_object_class overloadClass rfl).1 "f" 1, by decide⟩

/-- C11: when the named member is not resolved, each of `Invoke`,
`InvokeArray`, `GetPropertyValue`, `SetPropertyValue`, `GetFieldValue` and
`SetFieldValue` does exactly this: with `throwOnFail = true` it raises the
managed `System.MissingMethodException` (methods),
`System.MissingMemberException` (properties) or
`System.MissingFieldException` (fields) and does nothing else; with
`throwOnFail = false` it does nothing at all (no exception, no call of the
runtime); the operations that return a value return null. -/
theorem unresolved_member_throws_or_returns_null (rt : MonoRuntime) (this : CScriptClass)
    (object newValue : Option MonoObjectRef) (name : String) :
    (∀ (pParams : RawParams) (numParams : Int),
      GetMonoMethod this.monoClass name numParams = none →
      this.Invoke rt object name pParams numParams true =
        ⟨none, [.Throw "System" "MissingMethodException" (this.failMessage "method" name)]⟩ ∧
      this.Invoke rt object name pParams numParams false = ⟨none, []⟩) ∧
    (∀ pParams : Option IMonoArray,
      GetMonoMethodArgs this.monoClass name pParams = .ok none →
      this.InvokeArray rt object name pParams true =
        .ok ⟨none,
          [.Throw "System" "MissingMethodException" (this.failMessage "method" name)]⟩ ∧
      this.InvokeArray rt object name pParams false = .ok ⟨none, []⟩) ∧
    (GetMonoProperty this.monoClass name = none →
      this.GetPropertyValue rt object name true =
        ⟨none,
          [.Throw "System" "MissingMemberException" (this.failMessage "property" name)]⟩ ∧
      this.GetPropertyValue rt object name false = ⟨none, []⟩ ∧
      this.SetPropertyValue object name newValue true =
        [.Throw "System" "MissingMemberException" (this.failMessage "property" name)] ∧
      this.SetPropertyValue object name newValue false = []) ∧
    (GetMonoField this.monoClass name = none →
      this.GetFieldValue rt object name true =
        ⟨none, [.Throw "System" "MissingFieldException" (this.failMessage "field" name)]⟩ ∧
      this.GetFieldValue rt object name false = ⟨none, []⟩ ∧
      this.SetFieldValue object name newValue true =
        [.Throw "System" "MissingFieldException" (this.failMessage "field" name)] ∧
      this.SetFieldValue object name newValue false = []) := by
  refine ⟨?_, ?_, ?_, ?_⟩
  · intro pParams numParams h
    simp [CScriptClass.Invoke, h, CScriptClass.onMissing]
  · intro pParams h
    simp [CScriptClass.InvokeArray, h, CScriptClass.onMissing]
  · intro h
    simp [CScriptClass.GetPropertyValue, CScriptClass.SetPropertyValue, h,
      CScriptClass.onMissing]
  · intro h
    simp [CScriptClass.GetFieldValue, CScriptClass.SetFieldValue, h, CScriptClass.onMissing]

/-- Witness of C11: the class `Actor` has no member named `Missing`. -/
theorem unresolved_member_throws_or_returns_null_witness :
    GetMonoMethod exampleScriptClass.monoClass "Missing" 0 = none ∧
      exampleScriptClass.Invoke exampleRuntime (some 1) "Missing" none 0 true =
        ⟨none, [.Throw "System" "MissingMethodException"
          "Failed to locate method Missing in class Actor"]⟩ ∧
      exampleScriptClass.InvokeArray exampleRuntime (some 1) "Missing" none false =
        .ok ⟨none, []⟩ ∧
      exampleScriptClass.SetPropertyValue (some 1) "Missing" (some 2) true =
        [.Throw "System" "MissingMemberException"
          "Failed to locate property Missing in class Actor"] ∧
      exampleScriptClass.GetFieldValue exampleRuntime (some 1) "Missing" false = ⟨none, []⟩ :=
  have h := unresolved_member_throws_or_returns_null exampleRuntime exampleScriptClass
    (some 1) (some 2) "Missing"
  ⟨by decide, (h.1 none 0 (by decide)).1.trans (by decide), (h.2.1 none (by decide)).2,
    (h.2.2.1 (by decide)).2.2.1.trans (by decide), (h.2.2.2 (by decide)).2.1⟩

/-- C12: for `Invoke` and `InvokeArray` on a method that resolves: when the
managed call leaves an exception, the operation calls the runtime once, passes
that exception to `HandleException` once and returns null; when it leaves
none, the operation calls the runtime once, does not call `HandleException`
and returns the object that the managed call returned (null when it returned
nothing). -/
theorem invoke_routes_exception_or_returns_result (rt : MonoRuntime) (this : CScriptClass)
    (object : Option MonoObjectRef) (methodName : String) (throwOnFail : Bool)
    (pMethod : MonoMethod) :
    (∀ (pParams : RawParams) (numParams : Int),
      GetMonoMethod this.monoClass methodName numParams = some pMethod →
      (∀ (pResult : Option MonoObjectRef) (pException : MonoObjectRef),
        rt.mono_runtime_invoke pMethod object pParams = (pResult, some pException) →
        this.Invoke rt object methodName pParams numParams throwOnFail =
          ⟨none, [.runtimeInvoke pMethod object true, .HandleException pException]⟩) ∧
      (∀ pResult : Option MonoObjectRef,
        rt.mono_runtime_invoke pMethod object pParams = (pResult, none) →
        this.Invoke rt object methodName pParams numParams throwOnFail =
          ⟨pResult, [.runtimeInvoke pMethod object true]⟩)) ∧
    (∀ pParams : Option IMonoArray,
      GetMonoMethodArgs this.monoClass methodName pParams = .ok (some pMethod) →
      (∀ (pResult : Option MonoObjectRef) (pException : MonoObjectRef),
        rt.mono_runtime_invoke_array pMethod object pParams = (pResult, some pException) →
        this.InvokeArray rt object methodName pParams throwOnFail =
          .ok ⟨none, [.runtimeInvokeArray pMethod object true,
            .HandleException pException]⟩) ∧
      (∀ pResult : Option MonoObjectRef,
        rt.mono_runtime_invoke_array pMethod object pParams = (pResult, none) →
        this.InvokeArray rt object methodName pParams throwOnFail =
          .ok ⟨pResult, [.runtimeInvokeArray pMethod object true]⟩)) := by
  refine ⟨?_, ?_⟩
  · intro pParams numParams h
    refine ⟨?_, ?_⟩
    · intro pResult pException hcall
      simp [CScriptClass.Invoke, h, hcall, CScriptClass.afterCall]
    · intro pResult hcall
      cases pResult <;> simp [CScriptClass.Invoke, h, hcall, CScriptClass.afterCall]
  · intro pParams h
    refine ⟨?_, ?_⟩
    · intro pResult pException hcall
      simp [CScriptClass.InvokeArray, h, hcall, CScriptClass.afterCall]
    · intro pResult hcall
      cases pResult <;> simp [CScriptClass.InvokeArray, h, hcall, CScriptClass.afterCall]

/-- Witness of C12: in the example runtime `Throws` raises the exception 900,
which is handled once, and `Get` returns the object 600. -/
theorem invoke_routes_exception_or_returns_result_witness :
    exampleScriptClass.Invoke exampleRuntime (some 1) "Throws" none 0 true =
        ⟨none, [.runtimeInvoke ⟨"Throws", [], 40⟩ (some 1) true, .HandleException 900]⟩ ∧
      exampleScriptClass.Invoke exampleRuntime (some 1) "Get" none 0 true =
        ⟨some 600, [.runtimeInvoke ⟨"Get", [], 41⟩ (some 1) true]⟩ ∧
      exampleScriptClass.InvokeArray exampleRuntime (some 1) "Throws" none true =
        .ok ⟨none, [.runtimeInvokeArray ⟨"Throws", [], 40⟩ (some 1) true,
          .HandleException 900]⟩ :=
  ⟨((invoke_routes_exception_or_returns_result exampleRuntime exampleScriptClass (some 1)
      "Throws" true ⟨"Throws", [], 40⟩).1 none 0 (by decide)).1 none 900 (by decide),
    ((invoke_routes_exception_or_returns_result exampleRuntime exampleScriptClass (some 1)
      "Get" true ⟨"Get", [], 41⟩).1 none 0 (by decide)).2 (some 600) (by decide),
    ((invoke_routes_exception_or_returns_result exampleRuntime exampleScriptClass (some 1)
      "Throws" true ⟨"Throws", [], 40⟩).2 none (by decide)).1 none 900 (by decide)⟩

/-- C13, the code at the failing input: `SetPropertyValue` on the property
`Health`, which resolves, calls the setter without an exception slot, while
`GetPropertyValue` on the same property calls the getter with a slot; and
for no class, object, name and value does `SetPropertyValue` pass anything
to `HandleException`, whatever the setter does. -/
theorem SetPropertyValue_gives_no_exception_slot :
    exampleScriptClass.SetPropertyValue (some 1) "Health" (some 2) true =
        [.propertySetValue ⟨"Health", 43⟩ (some 1) (some 2) false] ∧
      (exampleScriptClass.GetPropertyValue exampleRuntime (some 1) "Health" true).trace =
        [.propertyGetValue ⟨"Health", 43⟩ (some 1) true] ∧
      (∀ (this : CScriptClass) (object newValue : Option MonoObjectRef)
          (propertyName : String) (throwOnFail : Bool) (pException : MonoObjectRef),
        Effect.HandleException pException ∉
          this.SetPropertyValue object propertyName newValue throwOnFail) := by
  refine ⟨by decide, by decide, ?_⟩
  intro this object newValue propertyName throwOnFail pException
  unfold CScriptClass.SetPropertyValue
  cases GetMonoProperty this.monoClass propertyName with
  | none => cases throwOnFail <;> simp [CScriptClass.onMissing]
  | some pProperty => simp

/-- Counterexample to C14: an interface that is not running drops the
exception passed to `HandleException`: the managed `DisplayException` routine
is not invoked. -/
theorem HandleException_drops_report_when_stopped :
    ¬ (∀ (this : MonoInterface) (exception : MonoObjectRef),
        Action.thunkDisplayException exception ∈ this.HandleException exception) := by
  intro h
  exact absurd (h stoppedInterface 900) (by decide)

/-- C14 as amended: for every exception passed to
`MonoInterface::HandleException` while the interface is running, the managed
`DisplayException` routine is invoked once, with that exception, and nothing
else is done; while the interface is not running nothing is invoked. -/
theorem HandleException_reports_while_running (this : MonoInterface)
    (exception : MonoObjectRef) :
    (this.running = true →
      this.HandleException exception = [.thunkDisplayException exception]) ∧
    (this.running = false → this.HandleException exception = []) := by
  constructor <;> intro h <;> simp [MonoInterface.HandleException, h]

/-- Witness of C14 as amended: a running and a stopped interface. -/
theorem HandleException_reports_while_running_witness :
    runningInterface.HandleException 900 = [.thunkDisplayException 900] ∧
      stoppedInterface.HandleException 900 = [] :=
  ⟨(HandleException_reports_while_running runningInterface 900).1 rfl,
    (HandleException_reports_while_running stoppedInterface 900).2 rfl⟩

/-- C15, the code at the failing input: `CreateInstance` without constructor
parameters allocates the object 500 and returns it, and it runs
`mono_runtime_object_init` on `m_pObject`, the address 7 of the wrapped class,
not on the object 500 that it allocated. With a parameter array it runs the
resolved `.ctor` on the object 500. -/
theorem CreateInstance_initialises_class_pointer :
    exampleScriptClass.CreateInstance exampleRuntime none true =
        .ok ⟨some 500, [.objectNew (some 500), .runtimeObjectInit (some 7)]⟩ ∧
      exampleScriptClass.CreateInstance exampleRuntime (some [some intArg]) true =
        .ok ⟨some 500, [.objectNew (some 500),
          .runtimeInvokeArray ⟨".ctor", [.MONO_TYPE_I4], 42⟩ (some 500) true]⟩ := by
  constructor <;> decide

/-- C16: `Shutdown` on a running interface leaves it not running, and in what
it does `mono_jit_cleanup` occurs once, after the release of the assembly
registry, of the GC and handle manager, of the object and function services
and of the class cache, each of which occurs before it and not after it. -/
theorem Shutdown_releases_before_jit_cleanup (this : MonoInterface)
    (hrun : this.running = true) :
    this.Shutdown.1.running = false ∧
    this.Shutdown.1.assemblies = false ∧ this.Shutdown.1.gc = false ∧
    this.Shutdown.1.objs = false ∧ this.Shutdown.1.funcs = false ∧
    this.Shutdown.1.classCache = false ∧ this.Shutdown.1.appDomain = false ∧
    ∃ pre post : List Action,
      this.Shutdown.2 = pre ++ Action.mono_jit_cleanup :: post ∧
      (∀ r ∈ registryReleases, r ∈ pre ∧ r ∉ post) ∧
      Action.mono_jit_cleanup ∉ pre ∧ Action.mono_jit_cleanup ∉ post := by
  have h : this.Shutdown =
      (stoppedInterface,
       [.CryLogAlways "Checking activity before shutdown.",
        .CryLogAlways "About to broadcast shutdown event.",
        .broadcasterShutdown,
        .CryLogAlways "About to send shutdown event to Cryambly.",
        .thunkShutdown,
        .frameworkUnregisterListener,
        .dispatcherRemoveListener,
        .deleteAssemblies,
        .deleteGc,
        .deleteObjs,
        .deleteFuncs,
        .classCacheDispose,
        .CryLogAlways "Shutting down jit."] ++
        Action.mono_jit_cleanup ::
          [.CryLogAlways "No more running.",
           .CryLogAlways "Deleting broadcaster.",
           .deleteBroadcaster]) := by
    simp [MonoInterface.Shutdown, hrun, stoppedInterface]
  rw [h]
  refine ⟨rfl, rfl, rfl, rfl, rfl, rfl, rfl, _, _, rfl, ?_, ?_, ?_⟩
  · decide
  · decide
  · decide

/-- Witness of C16: the running example interface. -/
theorem Shutdown_releases_before_jit_cleanup_witness :
    runningInterface.running = true ∧ runningInterface.Shutdown.1.running = false :=
  ⟨rfl, (Shutdown_releases_before_jit_cleanup runningInterface rfl).1⟩

/-- C17: `Shutdown` on an interface that is not running writes one log line
and nothing else: it releases nothing, calls no managed thunk and leaves the
state as it is. In particular a second `Shutdown` after a first one, from
whatever state, changes nothing. -/
theorem Shutdown_when_not_running_does_nothing :
    (∀ this : MonoInterface, this.running = false →
      this.Shutdown = (this, [.CryLogAlways "Checking activity before shutdown."]) ∧
      ∀ a ∈ this.Shutdown.2, a.isRelease = false ∧ a.isThunk = false) ∧
    (∀ this : MonoInterface,
      this.Shutdown.1.Shutdown =
        (this.Shutdown.1, [.CryLogAlways "Checking activity before shutdown."])) := by
  have h1 : ∀ this : MonoInterface, this.running = false →
      this.Shutdown = (this, [.CryLogAlways "Checking activity before shutdown."]) := by
    intro this h
    simp [MonoInterface.Shutdown, h]
  refine ⟨fun this h => ⟨h1 this h, ?_⟩, fun this => ?_⟩
  · rw [h1 this h]
    intro a ha
    simp only [List.mem_singleton] at ha
    subst ha
    exact ⟨rfl, rfl⟩
  · apply h1
    cases hr : this.running <;> simp [MonoInterface.Shutdown, hr]

/-- Witness of C17: a stopped interface, and a second `Shutdown` of the running
example interface. -/
theorem Shutdown_when_not_running_does_nothing_witness :
    stoppedInterface.Shutdown =
        (stoppedInterface, [.CryLogAlways "Checking activity before shutdown."]) ∧
      runningInterface.Shutdown.1.Shutdown.1 = runningInterface.Shutdown.1 :=
  ⟨(Shutdown_when_not_running_does_nothing.1 stoppedInterface rfl).1,
    by rw [Shutdown_when_not_running_does_nothing.2 runningInterface]⟩

/-- C18: `OnPostUpdate` on a running interface does the broadcaster `Update`,
then the managed `Update` thunk, then the broadcaster `PostUpdate`, each once
and nothing else; on an interface that is not running it does nothing. -/
theorem OnPostUpdate_update_thunk_postupdate (this : MonoInterface) :
    (this.running = true →
      this.OnPostUpdate = [.broadcasterUpdate, .thunkUpdate, .broadcasterPostUpdate]) ∧
    (this.running = false → this.OnPostUpdate = []) := by
  constructor <;> intro h <;> simp [MonoInterface.OnPostUpdate, h]

/-- Witness of C18: a running and a stopped interface. -/
theorem OnPostUpdate_update_thunk_postupdate_witness :
    runningInterface.OnPostUpdate =
        [.broadcasterUpdate, .thunkUpdate, .broadcasterPostUpdate] ∧
      stoppedInterface.OnPostUpdate = [] :=
  ⟨(OnPostUpdate_update_thunk_postupdate runningInterface).1 rfl,
    (OnPostUpdate_update_thunk_postupdate stoppedInterface).2 rfl⟩

/-- C19: `IMonoDelegate::Invoke` without an exception slot passes an exception
raised by the delegate to `MonoEnv->HandleException` and returns null; when
none is raised it returns the result of the delegate and does not call the
handler. With an exception slot it returns the result of the runtime as it
is, leaves the exception in the slot and does not call the handler. -/
theorem delegate_Invoke_handles_exception_without_slot (env : MonoEnvObjects)
    (this : IMonoDelegate) (params : RawParams) :
    (∀ (obj : Option MonoObjectRef) (exo : MonoObjectRef),
      env.InvokeDelegate this.obj params = (obj, some exo) →
      this.Invoke env params false = ⟨none, none, [exo]⟩) ∧
    (∀ obj : Option MonoObjectRef,
      env.InvokeDelegate this.obj params = (obj, none) →
      this.Invoke env params false = ⟨obj, none, []⟩) ∧
    this.Invoke env params true =
      ⟨(env.InvokeDelegate this.obj params).1, some (env.InvokeDelegate this.obj params).2,
        []⟩ := by
  refine ⟨?_, ?_, ?_⟩
  · intro obj exo h
    simp [IMonoDelegate.Invoke, h]
  · intro obj h
    simp [IMonoDelegate.Invoke, h]
  · simp [IMonoDelegate.Invoke]

/-- Witness of C19: the delegate 2 raises the exception 900, the delegate 1
returns the object 10. -/
theorem delegate_Invoke_handles_exception_without_slot_witness :
    IMonoDelegate.Invoke exampleEnv ⟨some 2, none⟩ none false = ⟨none, none, [900]⟩ ∧
      IMonoDelegate.Invoke exampleEnv ⟨some 1, none⟩ none false = ⟨some 10, none, []⟩ ∧
      IMonoDelegate.Invoke exampleEnv ⟨some 2, none⟩ none true =
        ⟨none, some (some 900), []⟩ :=
  ⟨(delegate_Invoke_handles_exception_without_slot exampleEnv ⟨some 2, none⟩ none).1 none 900
      (by decide),
    (delegate_Invoke_handles_exception_without_slot exampleEnv ⟨some 1, none⟩ none).2.1
      (some 10) (by decide),
    (delegate_Invoke_handles_exception_without_slot exampleEnv ⟨some 2, none⟩ none).2.2.trans
      (by decide)⟩

/-- C20, the code at the failing input: a wrapper of the delegate 1 whose
`GetFunction` has cached the function wrapper 101 is assigned the delegate 2.
The assignment gives the wrapper 101 to `delete` and makes the wrapper refer
to the delegate 2, but leaves `func` as it is, so that `GetFunction` then
returns the deleted wrapper 101 of the delegate 1 and not the function 102 of
the delegate 2. Assigning the same delegate changes nothing. -/
theorem delegate_assign_keeps_deleted_function :
    (IMonoDelegate.GetFunction exampleEnv ⟨some 1, none⟩).2 = ⟨some 1, some 101⟩ ∧
      IMonoDelegate.assign ⟨some 1, some 101⟩ (some 2) = (⟨some 2, some 101⟩, [101]) ∧
      (IMonoDelegate.GetFunction exampleEnv ⟨some 2, some 101⟩).1 = some 101 ∧
      exampleEnv.GetDelegateFunction (some 2) = some 102 ∧
      IMonoDelegate.assign ⟨some 1, some 101⟩ (some 1) = (⟨some 1, some 101⟩, []) := by
  decide

/-- C21, the code at its only input: the list that `RegisterDefaultListeners`
builds holds `CharacterInterop` twice, with and without `_DEBUG`, so it is
not free of duplicates. -/
theorem RegisterDefaultListeners_adds_CharacterInterop_twice :
    (RegisterDefaultListeners false).count "CharacterInterop" = 2 ∧
      (RegisterDefaultListeners true).count "CharacterInterop" = 2 ∧
      ¬ (RegisterDefaultListeners false).Nodup ∧ ¬ (RegisterDefaultListeners true).Nodup := by
  have h1 : (RegisterDefaultListeners false).count "CharacterInterop" = 2 := by decide
  have h2 : (RegisterDefaultListeners true).count "CharacterInterop" = 2 := by decide
  refine ⟨h1, h2, ?_, ?_⟩
  · intro hn
    have := List.nodup_iff_count_le_one.mp hn "CharacterInterop"
    omega
  · intro hn
    have := List.nodup_iff_count_le_one.mp hn "CharacterInterop"
    omega

/-- C25, the code at the failing inputs: on a class that declares `f (int)`,
`GetMonoMethod ("f", args)` with a null array calls `GetItem (0)` on the null
pointer, and with an array of size 0 it calls `GetItem (0)`, an index that
is not less than the size. -/
theorem GetMonoMethodArgs_invalid_array_access :
    GetMonoMethodArgs overloadClass "f" none = .error (.nullArray 0) ∧
      GetMonoMethodArgs overloadClass "f" (some []) = .error (.outOfRange 0 0) ∧
      exampleScriptClass.InvokeArray exampleRuntime (some 1) ".ctor" none true =
        .error (.nullArray 0) := by
  decide

/-- C26, the code at the failing inputs: the three events of the left button
call the handlers `OnRightMouseButton...` and the three events of the right
button call the handlers `OnLeftMouseButton...`; the events of the middle
button, the move and the wheel call the handler of their name, and an
unknown event calls none. -/
theorem OnHardwareMouseEvent_swaps_left_and_right :
    OnHardwareMouseEvent 3 4 .HARDWAREMOUSEEVENT_LBUTTONDOWN 0 =
        [⟨"OnRightMouseButtonDown", [3, 4]⟩] ∧
      OnHardwareMouseEvent 3 4 .HARDWAREMOUSEEVENT_LBUTTONUP 0 =
        [⟨"OnRightMouseButtonUp", [3, 4]⟩] ∧
      OnHardwareMouseEvent 3 4 .HARDWAREMOUSEEVENT_LBUTTONDOUBLECLICK 0 =
        [⟨"OnRightMouseButtonDoubleClick", [3, 4]⟩] ∧
      OnHardwareMouseEvent 3 4 .HARDWAREMOUSEEVENT_RBUTTONDOWN 0 =
        [⟨"OnLeftMouseButtonDown", [3, 4]⟩] ∧
      OnHardwareMouseEvent 3 4 .HARDWAREMOUSEEVENT_RBUTTONUP 0 =
        [⟨"OnLeftMouseButtonUp", [3, 4]⟩] ∧
      OnHardwareMouseEvent 3 4 .HARDWAREMOUSEEVENT_RBUTTONDOUBLECLICK 0 =
        [⟨"OnLeftMouseButtonDoubleClick", [3, 4]⟩] ∧
      OnHardwareMouseEvent 3 4 .HARDWAREMOUSEEVENT_MBUTTONDOWN 0 =
        [⟨"OnMiddleMouseButtonDown", [3, 4]⟩] ∧
      OnHardwareMouseEvent 3 4 .HARDWAREMOUSEEVENT_MOVE 0 = [⟨"OnMove", [3, 4]⟩] ∧
      OnHardwareMouseEvent 3 4 .HARDWAREMOUSEEVENT_WHEEL 120 = [⟨"OnWheel", [120]⟩] ∧
      OnHardwareMouseEvent 3 4 (.other 99) 0 = [] := by
  decide

/-- C27, the code at the failing input: `cancel` is false on exit of the
constructor whatever the `Create` thunk returns, and when the thunk returns
null the constructor deletes the node and then still asks the GC to keep the
null object. -/
theorem construct_never_cancels :
    (∀ (env : FlowNodeEnv) (defaultConfig : SFlowNodeConfig) (typeId myID : Nat),
      (MonoFlowNode.construct env defaultConfig typeId myID).2.1 = false) ∧
    failingFlowEnv.Create 5 1 = none ∧
    (MonoFlowNode.construct failingFlowEnv emptyNodeConfig 5 1).2.2 =
      [.Create 5 1, .deleteThis, .gcKeep none] := by
  refine ⟨fun _ _ _ _ => rfl, rfl, by decide⟩

/-- Counterexample to C24: for a node with a valid handle and 256 input ports
the `byte` counter of the collecting loop wraps from 255 to 0 and never
reaches the bound, so that with no amount of fuel does `ProcessEvent` get to
pass an identifier array to the managed `Activate` handler. -/
theorem ProcessEvent_activate_256_ports_never_returns :
    ¬ ∃ (fuel : Nat) (trace : List FlowEffect),
      MonoFlowNode.ProcessEvent fuel validNode .eFE_Activate manyPortInfo = some trace := by
  rintro ⟨fuel, trace, h⟩
  have hc : MonoFlowNode.collectIds 256 (fun _ => ⟨false, .empty⟩) fuel 0 [] = none :=
    collectIds_unflagged_runs_on fuel 0 (by decide)
  have hw : MonoFlowNode.wrapInt32 256 = 256 := by decide
  simp [MonoFlowNode.ProcessEvent, validNode, manyPortInfo, hw, hc] at h

/-- C24 as amended: on `eFE_Activate` with a valid handle, when the input port
count of the node is not negative and the number `P` of ports considered (the
input port count, less one when the node targets an entity) is at most 255,
the identifier array passed to the managed `Activate` handler is the list of
the port indices `i < P` whose port has its user flag set, in strictly
ascending order, and the value array is the list of the data of the ports
with these identifiers, in the same order. -/
theorem ProcessEvent_activate_passes_flagged_ports (fuel : Nat) (this : MonoFlowNode)
    (actInfo : SActivationInfo) (hvalid : this.objHandle.IsValid = true)
    (hcount : 0 ≤ actInfo.numInputPorts)
    (hP : (if this.targetsEntity then actInfo.numInputPorts - 1
      else actInfo.numInputPorts) ≤ 255)
    (hfuel : 256 < fuel) :
    MonoFlowNode.ProcessEvent fuel this .eFE_Activate actInfo =
      some
        [.arraysCreate
            ((List.range (if this.targetsEntity then actInfo.numInputPorts - 1
              else actInfo.numInputPorts).toNat).filter
                (fun i => (actInfo.pInputPorts i).userFlag)).length,
          .arraysCreate
            ((List.range (if this.targetsEntity then actInfo.numInputPorts - 1
              else actInfo.numInputPorts).toNat).filter
                (fun i => (actInfo.pInputPorts i).userFlag)).length,
          .gcPin, .gcPin,
          .Activate this.objHandle.Object
            ((List.range (if this.targetsEntity then actInfo.numInputPorts - 1
              else actInfo.numInputPorts).toNat).filter
                (fun i => (actInfo.pInputPorts i).userFlag))
            (((List.range (if this.targetsEntity then actInfo.numInputPorts - 1
              else actInfo.numInputPorts).toNat).filter
                (fun i => (actInfo.pInputPorts i).userFlag)).map
                  (fun id => (actInfo.pInputPorts id).data))] ∧
      ((List.range (if this.targetsEntity then actInfo.numInputPorts - 1
        else actInfo.numInputPorts).toNat).filter
          (fun i => (actInfo.pInputPorts i).userFlag)).Pairwise (fun a b => a < b) := by
  have hw : (if this.targetsEntity then
        MonoFlowNode.wrapInt32 (MonoFlowNode.wrapInt32 actInfo.numInputPorts - 1)
      else MonoFlowNode.wrapInt32 actInfo.numInputPorts) =
      (if this.targetsEntity then actInfo.numInputPorts - 1 else actInfo.numInputPorts) := by
    cases ht : this.targetsEntity
    · simp only [ht, Bool.false_eq_true, if_false] at hP ⊢
      unfold MonoFlowNode.wrapInt32
      omega
    · simp only [ht, if_true] at hP ⊢
      unfold MonoFlowNode.wrapInt32
      omega
  generalize hpc : (if this.targetsEntity then actInfo.numInputPorts - 1
    else actInfo.numInputPorts) = portCount at hP hw ⊢
  have hN : portCount.toNat ≤ 255 := by omega
  have hlen : ((List.range portCount.toNat).filter
      (fun i => (actInfo.pInputPorts i).userFlag)).length ≤ 255 :=
    le_trans (List.length_filter_le _ _) (by simpa using hN)
  have hc := collectIds_eq portCount actInfo.pInputPorts hN portCount.toNat 0 [] fuel
    (by omega) (by omega)
  rw [List.nil_append, ← List.range_eq_range'] at hc
  have hf := fillArrays_eq _ actInfo.pInputPorts hlen _ 0 [] [] fuel (Nat.zero_add _)
    (by omega)
  simp only [List.drop_zero, List.nil_append] at hf
  refine ⟨?_, (List.pairwise_lt_range _).filter _⟩
  simp only [MonoFlowNode.ProcessEvent, hvalid, Bool.not_true, Bool.false_eq_true, if_false,
    hw, hc, hf]

/-- Witness of C24 as amended: of four input ports the ports 1 and 3 are
flagged; the handler receives the identifiers 1, 3 and the data 10, 30. -/
theorem ProcessEvent_activate_passes_flagged_ports_witness :
    MonoFlowNode.ProcessEvent 300 validNode .eFE_Activate fourPortInfo =
      some [.arraysCreate 2, .arraysCreate 2, .gcPin, .gcPin,
        .Activate (some 70) [1, 3] [.int32 10, .int32 30]] :=
  (ProcessEvent_activate_passes_flagged_ports 300 validNode fourPortInfo rfl (by decide)
    (by decide) (by decide)).1.trans (by decide)

/-- C28: when a first `GetConfiguration` on a node with a valid handle and no
stored configuration has computed the configuration, calling the managed
`GetConfiguration` thunk once, every later call, whatever the managed side
would answer, leaves the node as it is and returns the stored configuration
(the same flags, description and port arrays) without calling the thunk and
without allocating port arrays. -/
theorem GetConfiguration_queries_managed_once (env : FlowNodeEnv) (EFLN_TARGET_ENTITY : Nat)
    (this : MonoFlowNode) (hvalid : this.objHandle.IsValid = true)
    (hfresh : this.nodeConfig.sUIClassName = none) :
    ((MonoFlowNode.GetConfiguration env EFLN_TARGET_ENTITY this).2.2.filter
        FlowEffect.isManagedCall = [.GetConfiguration this.objHandle.Object]) ∧
    (MonoFlowNode.GetConfiguration env EFLN_TARGET_ENTITY this).1.nodeConfig =
      (MonoFlowNode.GetConfiguration env EFLN_TARGET_ENTITY this).2.1 ∧
    ∀ (env2 : FlowNodeEnv) (flag2 : Nat),
      MonoFlowNode.GetConfiguration env2 flag2
          (MonoFlowNode.GetConfiguration env EFLN_TARGET_ENTITY this).1 =
        ((MonoFlowNode.GetConfiguration env EFLN_TARGET_ENTITY this).1,
          (MonoFlowNode.GetConfiguration env EFLN_TARGET_ENTITY this).2.1, []) := by
  refine ⟨?_, ?_, ?_⟩
  · simp [MonoFlowNode.GetConfiguration, hvalid, hfresh, FlowEffect.isManagedCall]
  · simp [MonoFlowNode.GetConfiguration, hvalid, hfresh]
  · intro env2 flag2
    simp [MonoFlowNode.GetConfiguration, hvalid, hfresh]

/-- Witness of C28: the first call on `validNode` stores the configuration with
flags 1, and a second call returns it with no effect. -/
theorem GetConfiguration_queries_managed_once_witness :
    (MonoFlowNode.GetConfiguration exampleFlowEnv 1 validNode).2.1.nFlags = 1 ∧
      (MonoFlowNode.GetConfiguration failingFlowEnv 1
        (MonoFlowNode.GetConfiguration exampleFlowEnv 1 validNode).1).2.2 = [] :=
  ⟨by decide,
    by rw [(GetConfiguration_queries_managed_once exampleFlowEnv 1 validNode rfl rfl).2.2
      failingFlowEnv 1]⟩

/-- C29: on a node whose handle is invalid, the destructor, `GetConfiguration`,
`SerializeXML`, `Serialize`, `PostSerialize` and `ProcessEvent` for every event
do nothing at all, so they call no managed thunk; `SerializeXML` returns
true and `GetConfiguration` returns the stored configuration. -/
theorem invalid_handle_no_managed_call (this : MonoFlowNode)
    (hinvalid : this.objHandle.IsValid = false) :
    this.destruct = [] ∧
    (∀ (env : FlowNodeEnv) (EFLN_TARGET_ENTITY : Nat),
      MonoFlowNode.GetConfiguration env EFLN_TARGET_ENTITY this =
        (this, this.nodeConfig, [])) ∧
    (∀ (env : FlowNodeEnv) (reading : Bool),
      MonoFlowNode.SerializeXML env this reading = (true, [])) ∧
    this.Serialize = [] ∧
    this.PostSerialize = [] ∧
    (∀ (fuel : Nat) (event : EFlowEvent) (actInfo : SActivationInfo),
      MonoFlowNode.ProcessEvent fuel this event actInfo = some []) := by
  refine ⟨?_, ?_, ?_, ?_, ?_, ?_⟩
  · simp [MonoFlowNode.destruct, hinvalid]
  · intro env flag
    simp [MonoFlowNode.GetConfiguration, hinvalid]
  · intro env reading
    simp [MonoFlowNode.SerializeXML, hinvalid]
  · simp [MonoFlowNode.Serialize, hinvalid]
  · simp [MonoFlowNode.PostSerialize, hinvalid]
  · intro fuel event actInfo
    simp [MonoFlowNode.ProcessEvent, hinvalid]

/-- Witness of C29: the node `invalidNode`. -/
theorem invalid_handle_no_managed_call_witness :
    invalidNode.objHandle.IsValid = false ∧ invalidNode.destruct = [] ∧
      MonoFlowNode.SerializeXML exampleFlowEnv invalidNode true = (true, []) ∧
      MonoFlowNode.ProcessEvent 0 invalidNode .eFE_Activate manyPortInfo = some [] :=
  have h := invalid_handle_no_managed_call invalidNode rfl
  ⟨rfl, h.1, h.2.2.1 exampleFlowEnv true, h.2.2.2.2.2 0 .eFE_Activate manyPortInfo⟩

/-- C22: run as a loop, one iteration per unit of fuel, each of `GetMonoMethod`
(both overloads), `GetMonoProperty` and `GetMonoField` returns within
`lookupFuel` iterations (one for each member of the walk, one for each class
of the base chain, and one more), with the result of the lookup, and the
members that the iterators handed out form a prefix of the walk: each
member of each class is visited at most once. -/
theorem lookups_return_within_fuel (pClass : MonoClassPtr) (name : String) :
    (∀ numParams : Int, ∃ visited : List MonoMethod,
      memberLoop (ε := ArrayFault) MonoClassPtr.getMethods
          (fun m => .ok (m.name == name && ((m.paramCount : Int) == numParams)))
          (lookupFuel MonoClassPtr.getMethods pClass) pClass pClass.getMethods =
        some (.ok (GetMonoMethod pClass name numParams), visited) ∧
      visited <+: methodSearchOrder pClass) ∧
    (∀ pArgs : Option IMonoArray, ∃ visited : List MonoMethod,
      memberLoop MonoClassPtr.getMethods (argsVerdict name pArgs)
          (lookupFuel MonoClassPtr.getMethods pClass) pClass pClass.getMethods =
        some (GetMonoMethodArgs pClass name pArgs, visited) ∧
      visited <+: methodSearchOrder pClass) ∧
    (∃ visited : List MonoProperty,
      memberLoop (ε := ArrayFault) MonoClassPtr.getProperties (fun p => .ok (p.name == name))
          (lookupFuel MonoClassPtr.getProperties pClass) pClass pClass.getProperties =
        some (.ok (GetMonoProperty pClass name), visited) ∧
      visited <+: propertySearchOrder pClass) ∧
    (∃ visited : List MonoClassField,
      memberLoop (ε := ArrayFault) MonoClassPtr.getFields (fun f => .ok (f.name == name))
          (lookupFuel MonoClassPtr.getFields pClass) pClass pClass.getFields =
        some (.ok (GetMonoField pClass name), visited) ∧
      visited <+: fieldSearchOrder pClass) := by
  refine ⟨?_, ?_, ?_, ?_⟩
  · intro numParams
    rw [memberLoop_lookupFuel _ _ rfl, firstVerdict_pure, GetMonoMethod_eq_find]
    exact ⟨_, rfl, visitedUntilVerdict_prefix _ _⟩
  · intro pArgs
    rw [memberLoop_lookupFuel _ _ rfl, GetMonoMethodArgs_eq_firstVerdict]
    exact ⟨_, rfl, visitedUntilVerdict_prefix _ _⟩
  · rw [memberLoop_lookupFuel _ _ rfl, firstVerdict_pure, GetMonoProperty_eq_find]
    exact ⟨_, rfl, visitedUntilVerdict_prefix _ _⟩
  · rw [memberLoop_lookupFuel _ _ rfl, firstVerdict_pure, GetMonoField_eq_find]
    exact ⟨_, rfl, visitedUntilVerdict_prefix _ _⟩

/-- C23: when the object `obj` is on the heap, a strong handle obtained with
`Keep` refers to it after a collection cycle, whatever the relocation: the
`Object` of the handle is not null and is the same logical object, with the
same values of its fields. -/
theorem Keep_survives_collection (heap : ManagedHeap) (obj : ManagedObject)
    (relocate : Nat → Nat)
    (hlive : heap.objects.find? (fun o => o.id == obj.id) = some obj) :
    ∃ found : ManagedObject,
      (ManagedHeap.Collect relocate (heap.Keep obj.id).1).handleObject (heap.Keep obj.id).2 =
        some found ∧
      found.id = obj.id ∧ found.fields = obj.fields := by
  have hheld : (heap.Keep obj.id).1.isHeld obj.id = true := by
    simp [ManagedHeap.Keep, ManagedHeap.isHeld]
  have hfind := find_after_collect (fun o => (heap.Keep obj.id).1.isHeld o.id)
    (fun o => if (heap.Keep obj.id).1.isPinned o.id then o
      else { o with address := relocate o.address })
    obj.id (by intro o; by_cases h : (heap.Keep obj.id).1.isPinned o.id = true <;> simp [h])
    obj hheld heap.objects hlive
  have hhandle : (ManagedHeap.Collect relocate (heap.Keep obj.id).1).handleObject
      (heap.Keep obj.id).2 =
      some (if (heap.Keep obj.id).1.isPinned obj.id then obj
        else { obj with address := relocate obj.address }) := by
    simp only [ManagedHeap.handleObject, ManagedHeap.Collect]
    have hget : (heap.Keep obj.id).1.handles.get? (heap.Keep obj.id).2 =
        some (.strong, obj.id) := by
      simp [ManagedHeap.Keep]
    rw [hget]
    exact hfind
  refine ⟨_, hhandle, ?_, ?_⟩
  · by_cases h : (heap.Keep obj.id).1.isPinned obj.id = true <;> simp [h]
  · by_cases h : (heap.Keep obj.id).1.isPinned obj.id = true <;> simp [h]

/-- Witness of C23: the test object 1 of `testHeap`, at the address 1000 with
the field `Number`, is kept; after a collection that moves objects the
handle gives an object of the identity 1 with the same fields. -/
theorem Keep_survives_collection_witness :
    testHeap.objects.find? (fun o => o.id == 1) = some ⟨1, 1000, [("Number", 34)]⟩ ∧
      ∃ found : ManagedObject,
        (ManagedHeap.Collect (fun a => a + 4000) (testHeap.Keep 1).1).handleObject
            (testHeap.Keep 1).2 = some found ∧
          found.id = 1 ∧ found.fields = [("Number", 34)] :=
  ⟨by decide,
    Keep_survives_collection testHeap ⟨1, 1000, [("Number", 34)]⟩ (fun a => a + 4000)
      (by decide)⟩

end CryMono
